import Mathlib

/-!
Verification of the FunctionFS gadget driver (drivers/usb/gadget/function/f_fs.c).

The file shallowly embeds the descriptor/string parser, the ep0 control-channel
state machine with its event queue, and the per-endpoint I/O engine.  Byte
buffers are `List Nat` (each entry one byte), machine integers are `Nat`/`Int`,
in-place mutation of `struct ffs_data` is explicit state passing, and calls into
external collaborators (UDC transport, VFS, allocator, user-space copies) are
resolved through explicit "world" records that carry each external call's
outcome.  Each embedded definition names the C function it is translated from.
-/

namespace FFS

/-! ### Error numbers (asm-generic errno values, returned negated as in C) -/

def EINVAL : Int := 22
def ENOSYS : Int := 38
def EIDRM : Int := 43
def EL2HLT : Int := 51
def ESRCH : Int := 3
def EAGAIN : Int := 11
def ENODEV : Int := 19
def ENOMEM : Int := 12
def EFAULT : Int := 14
def EINTR : Int := 4
def EIO : Int := 5
def EBADFD : Int := 77
def EBADMSG : Int := 74
def EOVERFLOW : Int := 75
def ESHUTDOWN : Int := 108
def EIOCBQUEUED : Int := 529

/-! ### Event queue and setup sub-state

`enum usb_functionfs_event_type` from include/uapi/linux/usb/functionfs.h and
`enum ffs_setup_state` / `enum ffs_state` from u_fs.h, plus the fields of
`struct ffs_data` that the embedded functions touch. -/

/-- Event types, in the declaration order of `enum usb_functionfs_event_type`. -/
inductive Ev
  | bind | unbind | enable | disable | setup | suspend | resume
deriving DecidableEq, Repr

/-- `enum ffs_setup_state`. -/
inductive SetupState
  | noSetup | setupPending | setupCancelled
deriving DecidableEq, Repr

/-- `enum ffs_state`. -/
inductive FfsState
  | readDescriptors | readStrings | active | closing | deactivated
deriving DecidableEq, Repr

/-- `struct usb_ctrlrequest` (the cached setup packet `ffs->ev.setup`). -/
structure SetupPacket where
  bRequestType : Nat
  bRequest : Nat
  wValue : Nat
  wIndex : Nat
  wLength : Nat
deriving DecidableEq, Repr

/-- The fields of `struct ffs_data` read or written by the embedded functions.
`ev_types` is the live prefix `ffs->ev.types[0 .. ffs->ev.count)`. -/
structure FfsData where
  state : FfsState
  setup_state : SetupState
  ev_types : List Ev
  ev_setup : SetupPacket
  can_stall : Bool
  eps_count : Nat
  interfaces_count : Nat
  strings_count : Nat
  eps_addrmap : List Nat
  user_flags : Nat
  ffs_eventfd : Option Nat
  raw_descs_data : List Nat
  raw_descs_length : Nat
  fs_descs_count : Nat
  hs_descs_count : Nat
  ss_descs_count : Nat
  ms_os_descs_count : Nat
  ms_os_descs_ext_prop_count : Nat
  ms_os_descs_ext_prop_name_len : Nat
  ms_os_descs_ext_prop_data_len : Nat
  has_stringtabs : Bool
  raw_strings : List Nat
deriving DecidableEq, Repr

/-- A fresh session as produced by `ffs_data_new` (kzalloc zero-fill, then
`state = FFS_READ_DESCRIPTORS` and `ev.can_stall = 1`). -/
def ffsDataNew : FfsData where
  state := .readDescriptors
  setup_state := .noSetup
  ev_types := []
  ev_setup := ⟨0, 0, 0, 0, 0⟩
  can_stall := true
  eps_count := 0
  interfaces_count := 0
  strings_count := 0
  eps_addrmap := List.replicate 15 0
  user_flags := 0
  ffs_eventfd := none
  raw_descs_data := []
  raw_descs_length := 0
  fs_descs_count := 0
  hs_descs_count := 0
  ss_descs_count := 0
  ms_os_descs_count := 0
  ms_os_descs_ext_prop_count := 0
  ms_os_descs_ext_prop_name_len := 0
  ms_os_descs_ext_prop_data_len := 0
  has_stringtabs := false
  raw_strings := []

/-- `__ffs_event_add` (f_fs.c).  Aborts an unhandled setup
(`FFS_SETUP_PENDING -> FFS_SETUP_CANCELLED`), purges superseded entries from
`ffs->ev.types` (keeping an entry exactly when
`(*ev == rem_type1 || *ev == rem_type2) == neg`), then appends the new type.
The `wake_up_locked`/`eventfd_signal` calls are external notifications with no
effect on the modelled state. -/
def ffsEventAdd (ffs : FfsData) (type : Ev) : FfsData :=
  let setup_state' : SetupState :=
    if ffs.setup_state = .setupPending then .setupCancelled else ffs.setup_state
  let rrn : Ev × Ev × Bool :=
    match type with
    | .resume => (.resume, .suspend, false)
    | .suspend => (.suspend, .suspend, false)
    | .setup => (.setup, .setup, false)
    | .bind | .unbind | .disable | .enable => (.suspend, .resume, true)
  let kept := ffs.ev_types.filter (fun e => ((e == rrn.1) || (e == rrn.2.1)) == rrn.2.2)
  { ffs with setup_state := setup_state', ev_types := kept ++ [type] }

/-- The queue/sub-state effect of `__ffs_ep0_read_events` popping `n` events
(callers pass `n = min(n, ffs->ev.count) >= 1`): each popped `FUNCTIONFS_SETUP`
sets `ffs->setup_state = FFS_SETUP_PENDING`, then `ev.count -= n` shifts the
remaining entries down. -/
def ffsEp0ReadEventsPop (ffs : FfsData) (n : Nat) : FfsData :=
  let scanned := ffs.ev_types.take n
  { ffs with
    setup_state := if scanned.contains .setup then .setupPending else ffs.setup_state
    ev_types := ffs.ev_types.drop n }

/-- Whether an event type is one of the function-identity lifecycle events
(the `FUNCTIONFS_BIND/UNBIND/DISABLE/ENABLE` arm of `__ffs_event_add`). -/
def isLifecycle : Ev → Bool
  | .bind | .unbind | .disable | .enable => true
  | _ => false

/-- Queue shape invariant behind the four-slot bound: at most one queued
`setup`, at most one `suspend`, at most one `resume`, and at most one
lifecycle event. -/
def evInv (q : List Ev) : Prop :=
  q.count .setup ≤ 1 ∧ q.count .suspend ≤ 1 ∧ q.count .resume ≤ 1 ∧
    q.countP (fun e => isLifecycle e) ≤ 1

/-- An abstract description of the purge rule actually implemented by
`__ffs_event_add`: `specKeep t e` tells whether an already queued `e` survives
enqueueing `t`.  `resume` discards queued `suspend` and `resume`; `suspend` and
`setup` discard earlier instances of themselves; the lifecycle events discard
everything except queued `suspend`/`resume`. -/
def specKeep : Ev → Ev → Bool
  | .resume, e => !(e == .suspend || e == .resume)
  | .suspend, e => !(e == .suspend)
  | .setup, e => !(e == .setup)
  | .bind, e | .unbind, e | .disable, e | .enable, e => (e == .suspend || e == .resume)

theorem ffsEventAdd_types (ffs : FfsData) (t : Ev) :
    (ffsEventAdd ffs t).ev_types = ffs.ev_types.filter (specKeep t) ++ [t] := by
  cases t <;>
    simp only [ffsEventAdd, List.append_cancel_right_eq] <;>
    exact List.filter_congr (fun e _ => by cases e <;> rfl)

theorem ffsEventAdd_setup_state (ffs : FfsData) (t : Ev) :
    (ffsEventAdd ffs t).setup_state =
      (if ffs.setup_state = .setupPending then .setupCancelled else ffs.setup_state) := by
  cases t <;> rfl

theorem count_filter_eq_zero {α : Type} [DecidableEq α] (p : α → Bool) (l : List α)
    (a : α) (h : p a = false) : (l.filter p).count a = 0 := by
  refine List.count_eq_zero.mpr (fun hmem => ?_)
  have := List.of_mem_filter hmem
  rw [h] at this
  exact Bool.false_ne_true this

theorem count_filter_le {α : Type} [DecidableEq α] (p : α → Bool) (l : List α) (a : α) :
    (l.filter p).count a ≤ l.count a :=
  (List.filter_sublist l).count_le a

theorem countP_filter_le {α : Type} (p q : α → Bool) (l : List α) :
    (l.filter p).countP q ≤ l.countP q :=
  (List.filter_sublist l).countP_le q

theorem countP_filter_eq_zero {α : Type} (p q : α → Bool) (l : List α)
    (h : ∀ a, q a = true → p a = false) : (l.filter p).countP q = 0 := by
  refine List.countP_eq_zero.mpr (fun a hmem hq => ?_)
  have := List.of_mem_filter hmem
  rw [h a hq] at this
  exact Bool.false_ne_true this

theorem count_app_le (p : Ev → Bool) (q : List Ev) (t a : Ev) (hq : q.count a ≤ 1)
    (hta : ¬ t = a) : ((q.filter p) ++ [t]).count a ≤ 1 := by
  rw [List.count_append, List.count_singleton', if_neg hta]
  have hf := count_filter_le p q a
  omega

theorem count_app_purged (p : Ev → Bool) (q : List Ev) (t a : Ev) (hp : p a = false) :
    ((q.filter p) ++ [t]).count a ≤ 1 := by
  rw [List.count_append, count_filter_eq_zero p q a hp, List.count_singleton']
  split <;> omega

theorem countP_app_le (p f : Ev → Bool) (q : List Ev) (t : Ev) (hq : q.countP f ≤ 1)
    (ht : f t = false) : ((q.filter p) ++ [t]).countP f ≤ 1 := by
  rw [List.countP_append]
  have hf := countP_filter_le p f q
  have h2 : List.countP f [t] = 0 := by simp [List.countP_cons, ht]
  omega

theorem countP_app_purged (p f : Ev → Bool) (q : List Ev) (t : Ev)
    (h : ∀ a, f a = true → p a = false) : ((q.filter p) ++ [t]).countP f ≤ 1 := by
  rw [List.countP_append, countP_filter_eq_zero p f q h]
  have h2 : List.countP f [t] ≤ 1 := by
    rcases Bool.eq_false_or_eq_true (f t) with hb | hb <;> simp [List.countP_cons, hb]
  omega

theorem evInv_add (ffs : FfsData) (t : Ev) (h : evInv ffs.ev_types) :
    evInv (ffsEventAdd ffs t).ev_types := by
  obtain ⟨h1, h2, h3, h4⟩ := h
  rw [ffsEventAdd_types]
  cases t with
  | resume =>
    exact ⟨count_app_le _ _ _ _ h1 (by decide), count_app_purged _ _ _ _ (by decide),
      count_app_purged _ _ _ _ (by decide), countP_app_le _ _ _ _ h4 (by decide)⟩
  | suspend =>
    exact ⟨count_app_le _ _ _ _ h1 (by decide), count_app_purged _ _ _ _ (by decide),
      count_app_le _ _ _ _ h3 (by decide), countP_app_le _ _ _ _ h4 (by decide)⟩
  | setup =>
    exact ⟨count_app_purged _ _ _ _ (by decide), count_app_le _ _ _ _ h2 (by decide),
      count_app_le _ _ _ _ h3 (by decide), countP_app_le _ _ _ _ h4 (by decide)⟩
  | bind =>
    exact ⟨count_app_purged _ _ _ _ (by decide), count_app_le _ _ _ _ h2 (by decide),
      count_app_le _ _ _ _ h3 (by decide),
      countP_app_purged _ _ _ _ (fun a ha => by
        cases a <;> first | decide | exact absurd ha (by decide))⟩
  | unbind =>
    exact ⟨count_app_purged _ _ _ _ (by decide), count_app_le _ _ _ _ h2 (by decide),
      count_app_le _ _ _ _ h3 (by decide),
      countP_app_purged _ _ _ _ (fun a ha => by
        cases a <;> first | decide | exact absurd ha (by decide))⟩
  | disable =>
    exact ⟨count_app_purged _ _ _ _ (by decide), count_app_le _ _ _ _ h2 (by decide),
      count_app_le _ _ _ _ h3 (by decide),
      countP_app_purged _ _ _ _ (fun a ha => by
        cases a <;> first | decide | exact absurd ha (by decide))⟩
  | enable =>
    exact ⟨count_app_purged _ _ _ _ (by decide), count_app_le _ _ _ _ h2 (by decide),
      count_app_le _ _ _ _ h3 (by decide),
      countP_app_purged _ _ _ _ (fun a ha => by
        cases a <;> first | decide | exact absurd ha (by decide))⟩

theorem evLength_eq (q : List Ev) :
    q.length = q.countP (fun e => isLifecycle e) + q.count .setup + q.count .suspend +
      q.count .resume := by
  induction q with
  | nil => rfl
  | cons e rest ih =>
    cases e <;> simp [List.count_cons, List.countP_cons, isLifecycle, ih] <;> omega

theorem evInv_length {q : List Ev} (h : evInv q) : q.length ≤ 4 := by
  obtain ⟨h1, h2, h3, h4⟩ := h
  have key := evLength_eq q
  omega


theorem evInv_foldl (ts : List Ev) :
    ∀ ffs : FfsData, evInv ffs.ev_types → evInv ((ts.foldl ffsEventAdd ffs).ev_types) := by
  induction ts with
  | nil => exact fun ffs h => h
  | cons t rest ih => exact fun ffs h => ih _ (evInv_add ffs t h)

/-- C4: for every sequence of enqueue operations over the seven event types,
the event queue of a session started fresh never holds more than four entries,
so the four-slot `ffs->ev.types` array never overflows. -/
theorem c4_event_queue_never_exceeds_four (ts : List Ev) :
    ((ts.foldl ffsEventAdd ffsDataNew).ev_types).length ≤ 4 :=
  evInv_length (evInv_foldl ts ffsDataNew ⟨by decide, by decide, by decide, by decide⟩)

/-- C3 counterexample: the claim says `Bind/Unbind/Disable/Enable` purge any
queued `Suspend` or `Resume`.  On the queue `[suspend]`, enqueueing `bind`
keeps the queued `suspend` (the `neg = 1` filter of `__ffs_event_add` discards
everything *except* `SUSPEND`/`RESUME`), so the result is `[suspend, bind]`,
not `[bind]`. -/
theorem c3_counterexample :
    (ffsEventAdd { ffsDataNew with ev_types := [.suspend] } .bind).ev_types =
      [.suspend, .bind] := by decide

/-- C3 amended: enqueueing `type` keeps exactly the entries allowed by
`specKeep type` (in their original relative order) and appends `type` at the
tail: `resume` supersedes a queued `suspend` and a queued `resume`; `suspend`
and `setup` supersede earlier instances of themselves; `bind/unbind/disable/
enable` purge every queued event *except* `suspend`/`resume`. -/
theorem c3_amended_supersede_rules (ffs : FfsData) (t : Ev) :
    (ffsEventAdd ffs t).ev_types = ffs.ev_types.filter (specKeep t) ++ [t] :=
  ffsEventAdd_types ffs t

/-! ### Descriptor parser

Embedding of `ffs_do_single_desc`, `ffs_do_descs`, `__ffs_data_do_entity`,
`__ffs_do_os_desc_header`, `ffs_do_single_os_desc`, `ffs_do_os_descs`,
`__ffs_data_do_os_desc` and `__ffs_data_got_descs`.  The entity callback is
specialised to `__ffs_data_do_entity`, the callback `__ffs_data_got_descs`
installs.  A byte buffer is the remaining `List Nat`, so the C `len` is the
list length and `data += n` is `List.drop n`. -/

def USB_DIR_IN : Nat := 128
def USB_ENDPOINT_NUMBER_MASK : Nat := 15
def FUNCTIONFS_DESCRIPTORS_MAGIC : Nat := 1
def FUNCTIONFS_STRINGS_MAGIC : Nat := 2
def FUNCTIONFS_DESCRIPTORS_MAGIC_V2 : Nat := 3
def FUNCTIONFS_HAS_FS_DESC : Nat := 1
def FUNCTIONFS_HAS_HS_DESC : Nat := 2
def FUNCTIONFS_HAS_SS_DESC : Nat := 4
def FUNCTIONFS_HAS_MS_OS_DESC : Nat := 8
def FUNCTIONFS_EVENTFD : Nat := 32

/-- `get_unaligned_le16` on a byte list at an offset. -/
def le16 (d : List Nat) (off : Nat) : Nat :=
  d.getD off 0 + 256 * d.getD (off + 1) 0

/-- `get_unaligned_le32` on a byte list at an offset. -/
def le32 (d : List Nat) (off : Nat) : Nat :=
  d.getD off 0 + 256 * d.getD (off + 1) 0 + 65536 * d.getD (off + 2) 0 +
    16777216 * d.getD (off + 3) 0

/-- `enum ffs_entity_type`. -/
inductive EntityType
  | descriptor | interface | string | endpoint
deriving DecidableEq, Repr

/-- `struct ffs_desc_helper` without its `ffs` back-pointer (the session is
passed alongside). -/
structure FfsDescHelper where
  interfaces_count : Nat
  eps_count : Nat
deriving DecidableEq, Repr

/-- `__ffs_data_do_entity` (f_fs.c): the entity callback installed by
`__ffs_data_got_descs`.  Interfaces raise the per-tier interface count, strings
raise the session-wide string count, endpoints raise the per-tier endpoint
count, reject a 15th endpoint, and record (first parse) or verify (later
tiers) the endpoint-address map entry with `d->bEndpointAddress` (byte 2 of
the descriptor). -/
def ffsDataDoEntity (t : EntityType) (value : Nat) (desc : List Nat)
    (h : FfsDescHelper) (ffs : FfsData) : Except Int Unit × FfsDescHelper × FfsData :=
  match t with
  | .descriptor => (.ok (), h, ffs)
  | .interface =>
    (.ok (), if h.interfaces_count ≤ value then { h with interfaces_count := value + 1 } else h,
      ffs)
  | .string =>
    (.ok (), h, if ffs.strings_count < value then { ffs with strings_count := value } else ffs)
  | .endpoint =>
    let h' := { h with eps_count := h.eps_count + 1 }
    if 15 ≤ h'.eps_count then (.error (-EINVAL), h', ffs)
    else if ffs.eps_count = 0 ∧ ffs.interfaces_count = 0 then
      (.ok (), h', { ffs with eps_addrmap := ffs.eps_addrmap.set h'.eps_count (desc.getD 2 0) })
    else if ffs.eps_addrmap.getD h'.eps_count 0 ≠ desc.getD 2 0 then (.error (-EINVAL), h', ffs)
    else (.ok (), h', ffs)

/-- The per-entity-type validity check of the `__entity` macro in
`ffs_do_single_desc` (`__entity_check_INTERFACE/STRING/ENDPOINT`). -/
def entityCheck : EntityType → Nat → Bool
  | .descriptor, _ => true
  | .interface, _ => true
  | .string, v => v ≠ 0
  | .endpoint, v => v &&& USB_ENDPOINT_NUMBER_MASK ≠ 0

/-- The `__entity` macro: run the check, then the callback. -/
def runEntity (t : EntityType) (v : Nat) (desc : List Nat) (h : FfsDescHelper)
    (ffs : FfsData) : Except Int Unit × FfsDescHelper × FfsData :=
  if ¬ entityCheck t v then (.error (-EINVAL), h, ffs)
  else ffsDataDoEntity t v desc h ffs

/-- The `USB_DT_INTERFACE` arm of the switch in `ffs_do_single_desc`
(f_fs.c): the descriptor must be exactly 9 bytes, the interface number (byte
2) is reported as an `FFS_INTERFACE` entity and a nonzero `iInterface` (byte
8) as an `FFS_STRING` entity. -/
def singleDescInterface (data : List Nat) (h : FfsDescHelper) (ffs : FfsData) :
    Except Int Nat × FfsDescHelper × FfsData :=
  if data.getD 0 0 ≠ 9 then (.error (-EINVAL), h, ffs) else
  match runEntity .interface (data.getD 2 0) data h ffs with
  | (.error e, h', f') => (.error e, h', f')
  | (.ok _, h', f') =>
    if data.getD 8 0 ≠ 0 then
      match runEntity .string (data.getD 8 0) data h' f' with
      | (.error e, h'', f'') => (.error e, h'', f'')
      | (.ok _, h'', f'') => (.ok (data.getD 0 0), h'', f'')
    else (.ok (data.getD 0 0), h', f')

/-- The `USB_DT_ENDPOINT` arm of the switch in `ffs_do_single_desc` (f_fs.c):
7 or 9 bytes (`USB_DT_ENDPOINT_SIZE`/`USB_DT_ENDPOINT_AUDIO_SIZE`), endpoint
address (byte 2) reported as an `FFS_ENDPOINT` entity. -/
def singleDescEndpoint (data : List Nat) (h : FfsDescHelper) (ffs : FfsData) :
    Except Int Nat × FfsDescHelper × FfsData :=
  if data.getD 0 0 ≠ 7 ∧ data.getD 0 0 ≠ 9 then (.error (-EINVAL), h, ffs) else
  match runEntity .endpoint (data.getD 2 0) data h ffs with
  | (.error e, h', f') => (.error e, h', f')
  | (.ok _, h', f') => (.ok (data.getD 0 0), h', f')

/-- The `USB_DT_INTERFACE_ASSOCIATION` arm of the switch in
`ffs_do_single_desc` (f_fs.c): 8 bytes, a nonzero `iFunction` (byte 7)
reported as an `FFS_STRING` entity. -/
def singleDescAssoc (data : List Nat) (h : FfsDescHelper) (ffs : FfsData) :
    Except Int Nat × FfsDescHelper × FfsData :=
  if data.getD 0 0 ≠ 8 then (.error (-EINVAL), h, ffs) else
  if data.getD 7 0 ≠ 0 then
    match runEntity .string (data.getD 7 0) data h ffs with
    | (.error e, h', f') => (.error e, h', f')
    | (.ok _, h', f') => (.ok (data.getD 0 0), h', f')
  else (.ok (data.getD 0 0), h, ffs)

/-- `ffs_do_single_desc` (f_fs.c), specialised to the `__ffs_data_do_entity`
callback.  Returns the consumed descriptor length (`bLength`, byte 0 — the C
local `length`) on success.  Descriptor type tags and struct sizes: DEVICE 1,
CONFIG 2, STRING 3, DEVICE_QUALIFIER 6 (all reserved for the gadget, hence
rejected), INTERFACE 4 (size 9), ENDPOINT 5 (size 7 or 9), OTG 9 (size 3),
INTERFACE_ASSOCIATION 11 (size 8), HID 0x21 (size 9), SS_ENDPOINT_COMP 0x30
(size 6); OTHER_SPEED_CONFIG 7, INTERFACE_POWER 8, DEBUG 0x0a, SECURITY 0x0c,
CS_RADIO_CONTROL 0x17 and unknown tags are rejected. -/
def ffsDoSingleDesc (data : List Nat) (h : FfsDescHelper) (ffs : FfsData) :
    Except Int Nat × FfsDescHelper × FfsData :=
  if data.length < 2 then (.error (-EINVAL), h, ffs) else
  if data.length < data.getD 0 0 then (.error (-EINVAL), h, ffs) else
  if data.getD 1 0 = 1 ∨ data.getD 1 0 = 2 ∨ data.getD 1 0 = 3 ∨ data.getD 1 0 = 6 then
    (.error (-EINVAL), h, ffs)
  else if data.getD 1 0 = 4 then singleDescInterface data h ffs
  else if data.getD 1 0 = 5 then singleDescEndpoint data h ffs
  else if data.getD 1 0 = 33 then
    if data.getD 0 0 ≠ 9 then (.error (-EINVAL), h, ffs) else (.ok (data.getD 0 0), h, ffs)
  else if data.getD 1 0 = 9 then
    if data.getD 0 0 ≠ 3 then (.error (-EINVAL), h, ffs) else (.ok (data.getD 0 0), h, ffs)
  else if data.getD 1 0 = 11 then singleDescAssoc data h ffs
  else if data.getD 1 0 = 48 then
    if data.getD 0 0 ≠ 6 then (.error (-EINVAL), h, ffs) else (.ok (data.getD 0 0), h, ffs)
  else (.error (-EINVAL), h, ffs)

/-- `ffs_do_descs` (f_fs.c), specialised to `__ffs_data_do_entity`: walk
`count` descriptors, invoking the `FFS_DESCRIPTOR` entity before each record
(and once more with a NULL record at the end, modelled by the empty list),
and return the number of bytes consumed. -/
def ffsDoDescs : Nat → List Nat → FfsDescHelper → FfsData →
    Except Int Nat × FfsDescHelper × FfsData
  | 0, _, h, ffs =>
    match ffsDataDoEntity .descriptor 0 [] h ffs with
    | (.error e, h', f') => (.error e, h', f')
    | (.ok _, h', f') => (.ok 0, h', f')
  | count + 1, data, h, ffs =>
    match ffsDataDoEntity .descriptor 0 data h ffs with
    | (.error e, h', f') => (.error e, h', f')
    | (.ok _, h', f') =>
      match ffsDoSingleDesc data h' f' with
      | (.error e, h'', f'') => (.error e, h'', f'')
      | (.ok consumed, h'', f'') =>
        match ffsDoDescs count (data.drop consumed) h'' f'' with
        | (.ok n, h3, f3) => (.ok (consumed + n), h3, f3)
        | (.error e, h3, f3) => (.error e, h3, f3)

/-- `enum ffs_os_desc_type` (the two concrete kinds). -/
inductive OsDescType
  | extCompat | extProp
deriving DecidableEq, Repr

/-- `__ffs_do_os_desc_header` (f_fs.c): `bcdVersion` (le16 at offset 5 of the
packed 11-byte `usb_os_desc_header`) must be 1; `wIndex` (le16 at offset 7)
selects ext-compat (4) or ext-prop (5).  Consumes `sizeof(*desc) = 11`. -/
def ffsDoOsDescHeader (desc : List Nat) : Except Int OsDescType :=
  if le16 desc 5 ≠ 1 then .error (-EINVAL)
  else if le16 desc 7 = 4 then .ok .extCompat
  else if le16 desc 7 = 5 then .ok .extProp
  else .error (-EINVAL)

/-- `__ffs_data_do_os_desc` (f_fs.c).  Ext-compat records are the fixed
24-byte `usb_ext_compat_desc` (`bFirstInterfaceNumber` at 0, `Reserved1` at 1,
`Reserved2` at 18..23); ext-prop records carry `dwSize` (le32 at 0, truncated
into a `u8` local as in the C), `dwPropertyDataType` (le32 at 4),
`wPropertyNameLength` (le16 at 8) and the data length le32 at `10 + pnl`. -/
def ffsDataDoOsDesc (t : OsDescType) (hIface : Nat) (data : List Nat) (ffs : FfsData) :
    Except Int Nat × FfsData :=
  match t with
  | .extCompat =>
    if data.length < 24 ∨ ffs.interfaces_count ≤ data.getD 0 0 ∨ data.getD 1 0 ≠ 1 then
      (.error (-EINVAL), ffs)
    else if (List.range 6).any (fun i => data.getD (18 + i) 0 ≠ 0) then (.error (-EINVAL), ffs)
    else (.ok 24, ffs)
  | .extProp =>
    if data.length < 10 ∨ ffs.interfaces_count ≤ hIface then (.error (-EINVAL), ffs)
    else
      let length := (le32 data 0) % 256
      if data.length < length then (.error (-EINVAL), ffs)
      else if le32 data 4 < 1 ∨ 7 < le32 data 4 then (.error (-EINVAL), ffs)
      else
        let pnl := le16 data 8
        if length < 14 + pnl then (.error (-EINVAL), ffs)
        else if length ≠ 14 + pnl + le32 data (10 + pnl) then (.error (-EINVAL), ffs)
        else (.ok length,
          { ffs with
            ms_os_descs_ext_prop_count := ffs.ms_os_descs_ext_prop_count + 1
            ms_os_descs_ext_prop_name_len := ffs.ms_os_descs_ext_prop_name_len + pnl * 2
            ms_os_descs_ext_prop_data_len :=
              ffs.ms_os_descs_ext_prop_data_len + le32 data (10 + pnl) })

/-- `ffs_do_single_os_desc` (f_fs.c): process `feature_count` ext-compat or
ext-prop records, returning the bytes consumed. -/
def ffsDoSingleOsDesc : Nat → List Nat → OsDescType → Nat → FfsData →
    Except Int Nat × FfsData
  | 0, _, _, _, ffs => (.ok 0, ffs)
  | fc + 1, data, t, hIface, ffs =>
    match ffsDataDoOsDesc t hIface data ffs with
    | (.error e, f') => (.error e, f')
    | (.ok consumed, f') =>
      match ffsDoSingleOsDesc fc (data.drop consumed) t hIface f' with
      | (.ok n, f'') => (.ok (consumed + n), f'')
      | (.error e, f'') => (.error e, f'')

/-- `ffs_do_os_descs` (f_fs.c), specialised to `__ffs_data_do_os_desc`:
process `count` feature descriptors (11-byte header plus records). -/
def ffsDoOsDescs : Nat → List Nat → FfsData → Except Int Nat × FfsData
  | 0, _, ffs => (.ok 0, ffs)
  | n + 1, data, ffs =>
    if data.length < 11 then (.error (-EINVAL), ffs)
    else if data.length < le32 data 1 then (.error (-EINVAL), ffs)
    else match ffsDoOsDescHeader data with
    | .error e => (.error e, ffs)
    | .ok t =>
      let feature_count := le16 data 9
      if t = .extCompat ∧ (255 < feature_count ∨ data.getD 10 0 ≠ 0) then
        (.error (-EINVAL), ffs)
      else match ffsDoSingleOsDesc feature_count (data.drop 11) t (data.getD 0 0) ffs with
      | (.error e, f') => (.error e, f')
      | (.ok consumed, f') =>
        match ffsDoOsDescs n (data.drop (11 + consumed)) f' with
        | (.ok m, f'') => (.ok (11 + consumed + m), f'')
        | (.error e, f'') => (.error e, f'')

/-- The speed-tier loop of `__ffs_data_got_descs` (f_fs.c, "Read descriptors"):
for each nonzero tier count, walk that tier with a fresh helper; the first
tier parsed while both running session counts are zero installs its counts,
any other tier must match them exactly or parsing fails with `EINVAL`. -/
def ffsGotDescsReadTiers : List Nat → List Nat → FfsData → Except Int Nat × FfsData
  | [], _, ffs => (.ok 0, ffs)
  | c :: rest, data, ffs =>
    if c = 0 then ffsGotDescsReadTiers rest data ffs
    else
      match ffsDoDescs c data ⟨0, 0⟩ ffs with
      | (.error e, _, f') => (.error e, f')
      | (.ok consumed, h', f') =>
        if f'.eps_count = 0 ∧ f'.interfaces_count = 0 then
          match ffsGotDescsReadTiers rest (data.drop consumed)
              { f' with eps_count := h'.eps_count, interfaces_count := h'.interfaces_count } with
          | (.ok n, f3) => (.ok (consumed + n), f3)
          | (.error e, f3) => (.error e, f3)
        else if f'.eps_count ≠ h'.eps_count then (.error (-EINVAL), f')
        else if f'.interfaces_count ≠ h'.interfaces_count then (.error (-EINVAL), f')
        else
          match ffsGotDescsReadTiers rest (data.drop consumed) f' with
          | (.ok n, f3) => (.ok (consumed + n), f3)
          | (.error e, f3) => (.error e, f3)

/-- The optional eventfd field of the `__ffs_data_got_descs` header
(`FUNCTIONFS_EVENTFD` flag): a 4-byte descriptor value (handed to the external
`eventfd_ctx_fdget`, modelled as succeeding). -/
def ffsGotDescsHeaderFd (flags : Nat) (data : List Nat) :
    Except Int (Option Nat × List Nat) :=
  if flags &&& FUNCTIONFS_EVENTFD ≠ 0 then
    if data.length < 4 then .error (-EINVAL)
    else .ok (some (le32 data 0), data.drop 4)
  else .ok (none, data)

/-- One step of the "Read fs_count, hs_count and ss_count (if present)" loop of
`__ffs_data_got_descs` (also used for the OS-descriptor count): when the tier
is declared by `flags`, read a 4-byte count, else the count is zero. -/
def readTierCount (present : Bool) (data : List Nat) : Except Int (Nat × List Nat) :=
  if present then
    if data.length < 4 then .error (-EINVAL) else .ok (le32 data 0, data.drop 4)
  else .ok (0, data)

/-- The count fields of the `__ffs_data_got_descs` header: the three per-tier
counts (bits 0-2 of `flags`) and the OS-descriptor count (bit 3). -/
def ffsGotDescsHeaderCounts (flags : Nat) (data : List Nat) :
    Except Int (List Nat × List Nat × Nat) :=
  match readTierCount (flags &&& FUNCTIONFS_HAS_FS_DESC ≠ 0) data with
  | .error e => .error e
  | .ok (c0, data2) =>
  match readTierCount (flags &&& FUNCTIONFS_HAS_HS_DESC ≠ 0) data2 with
  | .error e => .error e
  | .ok (c1, data3) =>
  match readTierCount (flags &&& FUNCTIONFS_HAS_SS_DESC ≠ 0) data3 with
  | .error e => .error e
  | .ok (c2, data4) =>
  match readTierCount (flags &&& FUNCTIONFS_HAS_MS_OS_DESC ≠ 0) data4 with
  | .error e => .error e
  | .ok (osCount, data5) => .ok ([c0, c1, c2], data5, osCount)

/-- The header portion of `__ffs_data_got_descs` after the magic switch:
eventfd field (recorded in the session before the counts are read, so a later
count error keeps it, as in the C), then the tier and OS-descriptor counts. -/
def ffsGotDescsHeader (ffs0 : FfsData) (flags : Nat) (data : List Nat) :
    Except Int (List Nat × List Nat × Nat) × FfsData :=
  match ffsGotDescsHeaderFd flags data with
  | .error e => (.error e, ffs0)
  | .ok (fd, data1) =>
    (ffsGotDescsHeaderCounts flags data1,
      match fd with
      | some v => { ffs0 with ffs_eventfd := some v }
      | none => ffs0)

/-- The body of `__ffs_data_got_descs` after the magic switch: header (eventfd
and counts), the tier walk, the OS-descriptor walk, the
`raw_descs == data || len` completeness check and the final field assignments.
`blob` is the whole buffer (kept as `raw_descs_data`), `data` the part after
the magic/length/flags header. -/
def ffsDataGotDescsBody (ffs0 : FfsData) (blob : List Nat) (flags : Nat)
    (data : List Nat) : Except Int Unit × FfsData :=
  match ffsGotDescsHeader ffs0 flags data with
  | (.error e, f1) => (.error e, f1)
  | (.ok (counts, data5, osCount), f1) =>
  match ffsGotDescsReadTiers counts data5 f1 with
  | (.error e, f') => (.error e, f')
  | (.ok tierConsumed, f') =>
  match (
    if osCount ≠ 0 then ffsDoOsDescs osCount (data5.drop tierConsumed) f'
    else (.ok 0, f') : Except Int Nat × FfsData) with
  | (.error e, f2) => (.error e, f2)
  | (.ok osConsumed, f2) =>
  if tierConsumed + osConsumed = 0 ∨ data5.length ≠ tierConsumed + osConsumed then
    (.error (-EINVAL), f2)
  else
    (.ok (), { f2 with
      raw_descs_data := blob
      raw_descs_length := tierConsumed + osConsumed
      fs_descs_count := counts.getD 0 0
      hs_descs_count := counts.getD 1 0
      ss_descs_count := counts.getD 2 0
      ms_os_descs_count := osCount })

/-- `__ffs_data_got_descs` (f_fs.c): check the declared total length, dispatch
on the magic (legacy magic 1 implies full- and high-speed descriptors and an
8-byte header; magic 3 reads a 32-bit flags word, stores it in `user_flags`
*before* validating it, and rejects unknown flag bits (any bit at or above 64)
with `ENOSYS`), then run the body.  On error the input blob is freed and the
session keeps whatever mutations already happened. -/
def ffsDataGotDescs (ffs0 : FfsData) (blob : List Nat) : Except Int Unit × FfsData :=
  if le32 blob 4 ≠ blob.length then (.error (-EINVAL), ffs0)
  else if le32 blob 0 = FUNCTIONFS_DESCRIPTORS_MAGIC then
    ffsDataGotDescsBody ffs0 blob (FUNCTIONFS_HAS_FS_DESC + FUNCTIONFS_HAS_HS_DESC)
      (blob.drop 8)
  else if le32 blob 0 = FUNCTIONFS_DESCRIPTORS_MAGIC_V2 then
    if 64 ≤ le32 blob 8 then (.error (-ENOSYS), { ffs0 with user_flags := le32 blob 8 })
    else ffsDataGotDescsBody { ffs0 with user_flags := le32 blob 8 } blob (le32 blob 8)
      (blob.drop 12)
  else (.error (-EINVAL), ffs0)

/-- The tier-count/payload reading of one magic variant, shared by
`blobTierSection`. -/
def blobTierHandle (flags : Nat) (data : List Nat) : Option (List Nat × List Nat) :=
  match ffsGotDescsHeaderFd flags data with
  | .error _ => none
  | .ok (_, data1) =>
    match ffsGotDescsHeaderCounts flags data1 with
    | .error _ => none
    | .ok (counts, data5, _) => some (counts, data5)

/-- Modelled from the spec (section 6, descriptor blob wire format): the
per-speed-tier declared descriptor counts and the concatenated raw descriptor
payload of a blob — 4-byte magic (legacy magic 1 implies the full- and
high-speed tiers and an 8-byte header; magic 3 carries a flags word at offset
8 and a 12-byte header), 4-byte declared total length, optional 4-byte
notifier field, one 4-byte count per declared tier in ascending tier order,
optional 4-byte OS-descriptor count, then the payload. -/
def blobTierSection (blob : List Nat) : Option (List Nat × List Nat) :=
  if le32 blob 4 ≠ blob.length then none
  else if le32 blob 0 = FUNCTIONFS_DESCRIPTORS_MAGIC then
    blobTierHandle (FUNCTIONFS_HAS_FS_DESC + FUNCTIONFS_HAS_HS_DESC) (blob.drop 8)
  else if le32 blob 0 = FUNCTIONFS_DESCRIPTORS_MAGIC_V2 then
    if 64 ≤ le32 blob 8 then none
    else blobTierHandle (le32 blob 8) (blob.drop 12)
  else none

/-- `strnlen(data, len)` on a byte list: bytes before the first NUL, or the
whole length when no NUL occurs. -/
def strnlenL (d : List Nat) : Nat := (d.takeWhile (fun b => b ≠ 0)).length

/-- The inner string do-while of `__ffs_data_got_strings`: each pass consumes
one NUL-terminated string (a string running to the end of the buffer without
a NUL is an error), then decrements `str_count` as a `u32` — wrapping at zero,
since the count is a shared variable never reset between languages — and the
loop exits only when the decremented count reaches zero.  Every pass consumes
at least one byte and the empty buffer errs, so fuel `d.length + 1` is never
exhausted (the zero-fuel arm errs like the exhausted-buffer pass would). -/
def ffsWalkStrings : Nat → Nat → List Nat → Except Int (List Nat)
  | 0, _, _ => .error (-EINVAL)
  | fuel + 1, sc, d =>
    let length := strnlenL d
    if length = d.length then .error (-EINVAL)
    else if (sc + 4294967295) % 4294967296 = 0 then .ok (d.drop (length + 1))
    else ffsWalkStrings fuel ((sc + 4294967295) % 4294967296) (d.drop (length + 1))

/-- The per-language do-while of `__ffs_data_got_strings`: a `len < 3` check,
a 16-bit language id, then the inner string walk.  The string count entering
the first language is the blob's `str_count`; the walk exits with the shared
count decremented to zero, so every later language re-enters it at zero (and
wraps). -/
def ffsWalkLangs : Nat → Nat → List Nat → Except Int (List Nat)
  | 0, _, d => .ok d
  | l + 1, strCount, d =>
    if d.length < 3 then .error (-EINVAL)
    else match ffsWalkStrings (d.length + 1) strCount (d.drop 2) with
    | .error e => .error e
    | .ok d2 => ffsWalkLangs l 0 d2

/-- `__ffs_data_got_strings` (f_fs.c): header checks (16-byte minimum, magic 2,
declared length), string/language counts, `str_count >= ffs->strings_count`,
then the language/string walk with a trailing-garbage check.  The one-chunk
table allocation is external and modelled as succeeding; success records the
string table presence.  All parse errors are `EINVAL`. -/
def ffsDataGotStrings (ffs : FfsData) (blob : List Nat) : Except Int Unit × FfsData :=
  if blob.length < 16 ∨ le32 blob 0 ≠ FUNCTIONFS_STRINGS_MAGIC ∨
      le32 blob 4 ≠ blob.length then (.error (-EINVAL), ffs)
  else
    let str_count := le32 blob 8
    let lang_count := le32 blob 12
    if (str_count = 0) ≠ (lang_count = 0) then (.error (-EINVAL), ffs)
    else if str_count < ffs.strings_count then (.error (-EINVAL), ffs)
    else if ffs.strings_count = 0 then (.ok (), ffs)
    else match ffsWalkLangs lang_count str_count (blob.drop 16) with
    | .error e => (.error e, ffs)
    | .ok rest =>
      if rest.length ≠ 0 then (.error (-EINVAL), ffs)
      else (.ok (), { ffs with has_stringtabs := true, raw_strings := blob })

/-- Modelled from the spec (sections 4.1 and 8): "the interface count and
endpoint count computed from each speed tier present in the blob" — for each
tier with a nonzero declared count, the (endpoint count, interface count)
pair obtained by walking that tier's descriptors in isolation, with a fresh
helper and a fresh session (the parser is specified as deterministic and
side-effect-free except for count accumulation). -/
def specTierCounts : List Nat → List Nat → Option (List (Nat × Nat))
  | [], _ => some []
  | c :: rest, data =>
    if c = 0 then specTierCounts rest data
    else
      match ffsDoDescs c data ⟨0, 0⟩ ffsDataNew with
      | (.ok consumed, h', _) =>
        match specTierCounts rest (data.drop consumed) with
        | some l => some ((h'.eps_count, h'.interfaces_count) :: l)
        | none => none
      | (.error _, _, _) => none

/-- The descriptor blob used to refute C1: magic v2, full- and high-speed
tiers present with one descriptor each; the full-speed tier is a single OTG
descriptor (no interfaces, no endpoints), the high-speed tier a single
interface descriptor (one interface).  Both tiers parse, the full-speed tier
leaves the running counts at (0,0), so the high-speed tier overwrites them
without any comparison and the blob is accepted although the two present
tiers disagree on the interface count. -/
def blobZeroTier : List Nat :=
  [3, 0, 0, 0,  32, 0, 0, 0,  3, 0, 0, 0,  1, 0, 0, 0,  1, 0, 0, 0,
   3, 9, 0,
   9, 4, 0, 0, 0, 0, 0, 0, 0]

/-- The descriptor blob used to refute C6's atomicity: magic v2, full- and
high-speed tiers declared; the full-speed tier is a valid bulk-IN endpoint
descriptor, the high-speed tier a truncated 1-byte record that fails the
walk.  The call fails, but the endpoint count recorded from the first tier
stays in the session. -/
def blobPartialFail : List Nat :=
  [3, 0, 0, 0,  28, 0, 0, 0,  3, 0, 0, 0,  1, 0, 0, 0,  1, 0, 0, 0,
   7, 5, 129, 2, 64, 0, 0,
   1]

example : (ffsDataGotDescs ffsDataNew blobZeroTier).1 = .ok () := by rfl
example : specTierCounts [1, 1, 0] (blobZeroTier.drop 20) = some [(0, 0), (0, 1)] := by decide
example : (ffsDataGotDescs ffsDataNew blobPartialFail).1 = .error (-EINVAL) := by rfl
example : (ffsDataGotDescs ffsDataNew blobPartialFail).2.eps_count = 1 := by decide

theorem runEntity_pres (t : EntityType) (v : Nat) (d : List Nat) (h : FfsDescHelper)
    (ffs : FfsData) :
    ((runEntity t v d h ffs).2.2).eps_count = ffs.eps_count ∧
      ((runEntity t v d h ffs).2.2).interfaces_count = ffs.interfaces_count ∧
      ((runEntity t v d h ffs).2.2).state = ffs.state := by
  unfold runEntity
  split
  · exact ⟨rfl, rfl, rfl⟩
  · cases t <;> simp only [ffsDataDoEntity] <;> repeat' split
    all_goals simp

theorem runEntity_pres_eq {t v d h ffs r hh ff}
    (heq : runEntity t v d h ffs = (r, hh, ff)) :
    ff.eps_count = ffs.eps_count ∧ ff.interfaces_count = ffs.interfaces_count ∧
      ff.state = ffs.state := by
  have hp := runEntity_pres t v d h ffs
  rw [heq] at hp
  exact hp

theorem pres_trans {a b c : FfsData}
    (h2 : c.eps_count = b.eps_count ∧ c.interfaces_count = b.interfaces_count ∧
      c.state = b.state)
    (h1 : b.eps_count = a.eps_count ∧ b.interfaces_count = a.interfaces_count ∧
      b.state = a.state) :
    c.eps_count = a.eps_count ∧ c.interfaces_count = a.interfaces_count ∧
      c.state = a.state :=
  ⟨h2.1.trans h1.1, h2.2.1.trans h1.2.1, h2.2.2.trans h1.2.2⟩

theorem singleDescInterface_pres (d : List Nat) (h : FfsDescHelper) (ffs : FfsData) :
    ((singleDescInterface d h ffs).2.2).eps_count = ffs.eps_count ∧
      ((singleDescInterface d h ffs).2.2).interfaces_count = ffs.interfaces_count ∧
      ((singleDescInterface d h ffs).2.2).state = ffs.state := by
  unfold singleDescInterface
  repeat' split
  all_goals first
    | exact ⟨rfl, rfl, rfl⟩
    | solve_by_elim [runEntity_pres_eq, pres_trans]

theorem singleDescEndpoint_pres (d : List Nat) (h : FfsDescHelper) (ffs : FfsData) :
    ((singleDescEndpoint d h ffs).2.2).eps_count = ffs.eps_count ∧
      ((singleDescEndpoint d h ffs).2.2).interfaces_count = ffs.interfaces_count ∧
      ((singleDescEndpoint d h ffs).2.2).state = ffs.state := by
  unfold singleDescEndpoint
  repeat' split
  all_goals first
    | exact ⟨rfl, rfl, rfl⟩
    | solve_by_elim [runEntity_pres_eq, pres_trans]

theorem singleDescAssoc_pres (d : List Nat) (h : FfsDescHelper) (ffs : FfsData) :
    ((singleDescAssoc d h ffs).2.2).eps_count = ffs.eps_count ∧
      ((singleDescAssoc d h ffs).2.2).interfaces_count = ffs.interfaces_count ∧
      ((singleDescAssoc d h ffs).2.2).state = ffs.state := by
  unfold singleDescAssoc
  repeat' split
  all_goals first
    | exact ⟨rfl, rfl, rfl⟩
    | solve_by_elim [runEntity_pres_eq, pres_trans]

theorem ffsDoSingleDesc_pres (d : List Nat) (h : FfsDescHelper) (ffs : FfsData) :
    ((ffsDoSingleDesc d h ffs).2.2).eps_count = ffs.eps_count ∧
      ((ffsDoSingleDesc d h ffs).2.2).interfaces_count = ffs.interfaces_count ∧
      ((ffsDoSingleDesc d h ffs).2.2).state = ffs.state := by
  unfold ffsDoSingleDesc
  repeat' split
  all_goals first
    | exact ⟨rfl, rfl, rfl⟩
    | exact singleDescInterface_pres d h ffs
    | exact singleDescEndpoint_pres d h ffs
    | exact singleDescAssoc_pres d h ffs

theorem ffsDoSingleDesc_pres_eq {d : List Nat} {h : FfsDescHelper} {ffs : FfsData}
    {r : Except Int Nat} {hh : FfsDescHelper} {ff : FfsData}
    (heq : ffsDoSingleDesc d h ffs = (r, hh, ff)) :
    ff.eps_count = ffs.eps_count ∧ ff.interfaces_count = ffs.interfaces_count ∧
      ff.state = ffs.state := by
  have hp := ffsDoSingleDesc_pres d h ffs
  rw [heq] at hp
  exact hp

theorem ffsDataDoEntity_iso {t : EntityType} {v : Nat} {d : List Nat} {h : FfsDescHelper}
    {ffs : FfsData} {u : Unit} {hh : FfsDescHelper} {ff : FfsData}
    (heq : ffsDataDoEntity t v d h ffs = (.ok u, hh, ff)) (ffs2 : FfsData)
    (h20 : ffs2.eps_count = 0) (h21 : ffs2.interfaces_count = 0) :
    ∃ ff2, ffsDataDoEntity t v d h ffs2 = (.ok u, hh, ff2) := by
  cases t with
  | descriptor =>
    simp only [ffsDataDoEntity] at heq ⊢
    cases heq
    exact ⟨ffs2, rfl⟩
  | interface =>
    simp only [ffsDataDoEntity] at heq ⊢
    cases heq
    exact ⟨ffs2, rfl⟩
  | string =>
    simp only [ffsDataDoEntity] at heq ⊢
    cases heq
    exact ⟨_, rfl⟩
  | endpoint =>
    simp only [ffsDataDoEntity] at heq ⊢
    split at heq
    · simp at heq
    · split at heq
      · cases heq
        rw [if_neg (by assumption), if_pos ⟨h20, h21⟩]
        exact ⟨_, rfl⟩
      · split at heq
        · simp at heq
        · cases heq
          rw [if_neg (by assumption), if_pos ⟨h20, h21⟩]
          exact ⟨_, rfl⟩

theorem runEntity_iso {t : EntityType} {v : Nat} {d : List Nat} {h : FfsDescHelper}
    {ffs : FfsData} {u : Unit} {hh : FfsDescHelper} {ff : FfsData}
    (heq : runEntity t v d h ffs = (.ok u, hh, ff)) (ffs2 : FfsData)
    (h20 : ffs2.eps_count = 0) (h21 : ffs2.interfaces_count = 0) :
    ∃ ff2, runEntity t v d h ffs2 = (.ok u, hh, ff2) := by
  unfold runEntity at heq ⊢
  by_cases hc : entityCheck t v = true
  · rw [if_neg (not_not_intro hc)] at heq ⊢
    exact ffsDataDoEntity_iso heq ffs2 h20 h21
  · rw [if_pos hc] at heq
    simp at heq

theorem singleDescInterface_iso {d : List Nat} {h : FfsDescHelper} {ffs : FfsData}
    {n : Nat} {hh : FfsDescHelper} {ff : FfsData}
    (heq : singleDescInterface d h ffs = (.ok n, hh, ff)) (ffs2 : FfsData)
    (h20 : ffs2.eps_count = 0) (h21 : ffs2.interfaces_count = 0) :
    ∃ ff2, singleDescInterface d h ffs2 = (.ok n, hh, ff2) := by
  unfold singleDescInterface at heq ⊢
  split at heq
  · simp at heq
  · rw [if_neg (by assumption)]
    rcases hr : runEntity .interface (d.getD 2 0) d h ffs with ⟨re, h1, f1⟩
    rw [hr] at heq
    cases re with
    | error e => simp at heq
    | ok u =>
      obtain ⟨f2, hr2⟩ := runEntity_iso hr ffs2 h20 h21
      obtain ⟨p1, p2, -⟩ := runEntity_pres_eq hr2
      rw [hr2]
      simp only at heq ⊢
      split at heq
      · rename_i hne
        rw [if_pos hne]
        rcases hr3 : runEntity .string (d.getD 8 0) d h1 f1 with ⟨re3, h3, f3⟩
        rw [hr3] at heq
        cases re3 with
        | error e => simp at heq
        | ok u3 =>
          obtain ⟨f4, hr4⟩ := runEntity_iso hr3 f2 (p1.trans h20) (p2.trans h21)
          rw [hr4]
          simp only at heq ⊢
          cases heq
          exact ⟨f4, rfl⟩
      · rename_i hne
        rw [if_neg hne]
        cases heq
        exact ⟨f2, rfl⟩

theorem singleDescEndpoint_iso {d : List Nat} {h : FfsDescHelper} {ffs : FfsData}
    {n : Nat} {hh : FfsDescHelper} {ff : FfsData}
    (heq : singleDescEndpoint d h ffs = (.ok n, hh, ff)) (ffs2 : FfsData)
    (h20 : ffs2.eps_count = 0) (h21 : ffs2.interfaces_count = 0) :
    ∃ ff2, singleDescEndpoint d h ffs2 = (.ok n, hh, ff2) := by
  unfold singleDescEndpoint at heq ⊢
  split at heq
  · simp at heq
  · rw [if_neg (by assumption)]
    rcases hr : runEntity .endpoint (d.getD 2 0) d h ffs with ⟨re, h1, f1⟩
    rw [hr] at heq
    cases re with
    | error e => simp at heq
    | ok u =>
      obtain ⟨f2, hr2⟩ := runEntity_iso hr ffs2 h20 h21
      rw [hr2]
      simp only at heq ⊢
      cases heq
      exact ⟨f2, rfl⟩

theorem singleDescAssoc_iso {d : List Nat} {h : FfsDescHelper} {ffs : FfsData}
    {n : Nat} {hh : FfsDescHelper} {ff : FfsData}
    (heq : singleDescAssoc d h ffs = (.ok n, hh, ff)) (ffs2 : FfsData)
    (h20 : ffs2.eps_count = 0) (h21 : ffs2.interfaces_count = 0) :
    ∃ ff2, singleDescAssoc d h ffs2 = (.ok n, hh, ff2) := by
  unfold singleDescAssoc at heq ⊢
  split at heq
  · simp at heq
  · rw [if_neg (by assumption)]
    split at heq
    · rename_i hne
      rw [if_pos hne]
      rcases hr : runEntity .string (d.getD 7 0) d h ffs with ⟨re, h1, f1⟩
      rw [hr] at heq
      cases re with
      | error e => simp at heq
      | ok u =>
        obtain ⟨f2, hr2⟩ := runEntity_iso hr ffs2 h20 h21
        rw [hr2]
        simp only at heq ⊢
        cases heq
        exact ⟨f2, rfl⟩
    · rename_i hne
      rw [if_neg hne]
      cases heq
      exact ⟨ffs2, rfl⟩

set_option maxHeartbeats 1600000 in
theorem ffsDoSingleDesc_iso {d : List Nat} {h : FfsDescHelper} {ffs : FfsData}
    {n : Nat} {hh : FfsDescHelper} {ff : FfsData}
    (heq : ffsDoSingleDesc d h ffs = (.ok n, hh, ff)) (ffs2 : FfsData)
    (h20 : ffs2.eps_count = 0) (h21 : ffs2.interfaces_count = 0) :
    ∃ ff2, ffsDoSingleDesc d h ffs2 = (.ok n, hh, ff2) := by
  unfold ffsDoSingleDesc at heq ⊢
  split at heq
  · cases heq
  · rw [if_neg (by assumption)]
    split at heq
    · cases heq
    · rw [if_neg (by assumption)]
      split at heq
      · cases heq
      · rw [if_neg (by assumption)]
        split at heq
        · rename_i ht
          rw [if_pos ht]
          exact singleDescInterface_iso heq ffs2 h20 h21
        · rename_i ht
          rw [if_neg ht]
          split at heq
          · rename_i ht5
            rw [if_pos ht5]
            exact singleDescEndpoint_iso heq ffs2 h20 h21
          · rename_i ht5
            rw [if_neg ht5]
            split at heq
            · rename_i ht33
              rw [if_pos ht33]
              split at heq
              · cases heq
              · rw [if_neg (by assumption)]
                cases heq
                exact ⟨ffs2, rfl⟩
            · rename_i ht33
              rw [if_neg ht33]
              split at heq
              · rename_i ht9
                rw [if_pos ht9]
                split at heq
                · cases heq
                · rw [if_neg (by assumption)]
                  cases heq
                  exact ⟨ffs2, rfl⟩
              · rename_i ht9
                rw [if_neg ht9]
                split at heq
                · rename_i ht11
                  rw [if_pos ht11]
                  exact singleDescAssoc_iso heq ffs2 h20 h21
                · rename_i ht11
                  rw [if_neg ht11]
                  split at heq
                  · rename_i ht48
                    rw [if_pos ht48]
                    split at heq
                    · cases heq
                    · rw [if_neg (by assumption)]
                      cases heq
                      exact ⟨ffs2, rfl⟩
                  · rename_i ht48
                    rw [if_neg ht48]
                    cases heq

theorem ffsDoDescs_pres :
    ∀ (k : Nat) (d : List Nat) (h : FfsDescHelper) (ffs : FfsData)
      {r : Except Int Nat} {hh : FfsDescHelper} {ff : FfsData},
      ffsDoDescs k d h ffs = (r, hh, ff) →
      ff.eps_count = ffs.eps_count ∧ ff.interfaces_count = ffs.interfaces_count ∧
        ff.state = ffs.state := by
  intro k
  induction k with
  | zero =>
    intro d h ffs r hh ff heq
    simp only [ffsDoDescs, ffsDataDoEntity] at heq
    cases heq
    exact ⟨rfl, rfl, rfl⟩
  | succ k ih =>
    intro d h ffs r hh ff heq
    simp only [ffsDoDescs, ffsDataDoEntity] at heq
    split at heq
    · cases heq
      exact ffsDoSingleDesc_pres_eq (by assumption)
    · split at heq
      · cases heq
        exact pres_trans (ih _ _ _ (by assumption)) (ffsDoSingleDesc_pres_eq (by assumption))
      · cases heq
        exact pres_trans (ih _ _ _ (by assumption)) (ffsDoSingleDesc_pres_eq (by assumption))

theorem ffsDoDescs_iso :
    ∀ (k : Nat) (d : List Nat) (h : FfsDescHelper) (ffs : FfsData)
      {n : Nat} {hh : FfsDescHelper} {ff : FfsData},
      ffsDoDescs k d h ffs = (.ok n, hh, ff) →
      ∀ ffs2 : FfsData, ffs2.eps_count = 0 → ffs2.interfaces_count = 0 →
        ∃ ff2, ffsDoDescs k d h ffs2 = (.ok n, hh, ff2) := by
  intro k
  induction k with
  | zero =>
    intro d h ffs n hh ff heq ffs2 h20 h21
    simp only [ffsDoDescs, ffsDataDoEntity] at heq ⊢
    cases heq
    exact ⟨ffs2, rfl⟩
  | succ k ih =>
    intro d h ffs n hh ff heq ffs2 h20 h21
    simp only [ffsDoDescs, ffsDataDoEntity] at heq ⊢
    split at heq
    · cases heq
    · rename_i consumed h1 f1 hs
      split at heq
      · cases heq
        rename_i nrec hrec
        obtain ⟨f2, hs2⟩ := ffsDoSingleDesc_iso hs ffs2 h20 h21
        obtain ⟨q1, q2, -⟩ := ffsDoSingleDesc_pres_eq hs2
        obtain ⟨f4, hr4⟩ := ih _ _ _ hrec f2 (q1.trans h20) (q2.trans h21)
        simp only [hs2]
        simp only [hr4]
        exact ⟨f4, rfl⟩
      · cases heq

theorem readTiers_nonzero :
    ∀ (counts : List Nat) (data : List Nat) (ffs : FfsData) {n : Nat} {ff : FfsData},
      ffsGotDescsReadTiers counts data ffs = (.ok n, ff) →
      (ffs.eps_count ≠ 0 ∨ ffs.interfaces_count ≠ 0) →
      ∃ l, specTierCounts counts data = some l ∧
        (∀ p ∈ l, p = (ffs.eps_count, ffs.interfaces_count)) ∧
        ff.eps_count = ffs.eps_count ∧ ff.interfaces_count = ffs.interfaces_count := by
  intro counts
  induction counts with
  | nil =>
    intro data ffs n ff heq hnz
    simp only [ffsGotDescsReadTiers] at heq
    cases heq
    exact ⟨[], rfl, by simp, rfl, rfl⟩
  | cons c rest ih =>
    intro data ffs n ff heq hnz
    simp only [ffsGotDescsReadTiers] at heq
    by_cases hc : c = 0
    · rw [if_pos hc] at heq
      obtain ⟨l, hl, hall, hf1, hf2⟩ := ih _ _ heq hnz
      refine ⟨l, ?_, hall, hf1, hf2⟩
      simp only [specTierCounts]
      rw [if_pos hc]
      exact hl
    · rw [if_neg hc] at heq
      split at heq
      · cases heq
      · rename_i consumed h' f' hd
        obtain ⟨pe, pi, -⟩ := ffsDoDescs_pres _ _ _ _ hd
        split at heq
        · rename_i hzero
          rcases hnz with hz | hz
          · exact absurd (pe.symm.trans hzero.1) hz
          · exact absurd (pi.symm.trans hzero.2) hz
        · split at heq
          · cases heq
          · rename_i hne1
            split at heq
            · cases heq
            · rename_i hne2
              have heps : h'.eps_count = f'.eps_count := (not_not.mp hne1).symm
              have hifs : h'.interfaces_count = f'.interfaces_count := (not_not.mp hne2).symm
              split at heq
              · cases heq
                rename_i nrec hrec
                obtain ⟨l', hl', hall', hf1', hf2'⟩ := ih _ _ hrec
                  (by rw [pe, pi]; exact hnz)
                refine ⟨(h'.eps_count, h'.interfaces_count) :: l', ?_, ?_, ?_, ?_⟩
                · simp only [specTierCounts]
                  rw [if_neg hc]
                  obtain ⟨fN, hdN⟩ := ffsDoDescs_iso _ _ _ _ hd ffsDataNew rfl rfl
                  simp only [hdN]
                  rw [hl']
                · intro p hp
                  rcases List.mem_cons.mp hp with hhd | htl
                  · rw [hhd, heps, hifs, pe, pi]
                  · rw [hall' p htl, pe, pi]
                · rw [hf1', pe]
                · rw [hf2', pi]
              · cases heq

theorem readTiers_fresh :
    ∀ (counts : List Nat) (data : List Nat) (ffs : FfsData) {n : Nat} {ff : FfsData},
      ffsGotDescsReadTiers counts data ffs = (.ok n, ff) →
      ffs.eps_count = 0 → ffs.interfaces_count = 0 →
      ∃ l, specTierCounts counts data = some l ∧
        ∀ p ∈ l, p ≠ (0, 0) → p = (ff.eps_count, ff.interfaces_count) := by
  intro counts
  induction counts with
  | nil =>
    intro data ffs n ff heq h1 h2
    simp only [ffsGotDescsReadTiers] at heq
    cases heq
    exact ⟨[], rfl, by simp⟩
  | cons c rest ih =>
    intro data ffs n ff heq h1 h2
    simp only [ffsGotDescsReadTiers] at heq
    by_cases hc : c = 0
    · rw [if_pos hc] at heq
      obtain ⟨l, hl, hall⟩ := ih _ _ heq h1 h2
      refine ⟨l, ?_, hall⟩
      simp only [specTierCounts]
      rw [if_pos hc]
      exact hl
    · rw [if_neg hc] at heq
      split at heq
      · cases heq
      · rename_i consumed h' f' hd
        obtain ⟨pe, pi, -⟩ := ffsDoDescs_pres _ _ _ _ hd
        obtain ⟨fN, hdN⟩ := ffsDoDescs_iso _ _ _ _ hd ffsDataNew rfl rfl
        split at heq
        · -- running counts still (0,0): the tier installs its own counts
          split at heq
          · cases heq
            rename_i nrec hrec
            by_cases hp0 : h'.eps_count = 0 ∧ h'.interfaces_count = 0
            · obtain ⟨l', hl', hall'⟩ := ih _ _ hrec hp0.1 hp0.2
              refine ⟨(h'.eps_count, h'.interfaces_count) :: l', ?_, ?_⟩
              · simp only [specTierCounts]
                rw [if_neg hc]
                simp only [hdN]
                rw [hl']
              · intro p hp hpne
                rcases List.mem_cons.mp hp with hhd | htl
                · exact absurd (by rw [hhd, hp0.1, hp0.2]) hpne
                · exact hall' p htl hpne
            · have hnz : h'.eps_count ≠ 0 ∨ h'.interfaces_count ≠ 0 := by
                by_contra hcon
                push_neg at hcon
                exact hp0 ⟨hcon.1, hcon.2⟩
              obtain ⟨l', hl', hall', hf1', hf2'⟩ := readTiers_nonzero _ _ _ hrec hnz
              refine ⟨(h'.eps_count, h'.interfaces_count) :: l', ?_, ?_⟩
              · simp only [specTierCounts]
                rw [if_neg hc]
                simp only [hdN]
                rw [hl']
              · intro p hp hpne
                rcases List.mem_cons.mp hp with hhd | htl
                · rw [hhd, hf1', hf2']
                · rw [hall' p htl, hf1', hf2']
          · cases heq
        · rename_i hcond
          exact absurd ⟨pe.trans h1, pi.trans h2⟩ hcond

theorem gotDescsBody_tiers {ffs0 : FfsData} {blob : List Nat} {flags : Nat}
    {dt : List Nat} {ffs' : FfsData} {counts data5 : List Nat}
    (hacc : ffsDataGotDescsBody ffs0 blob flags dt = (.ok (), ffs'))
    (hfresh1 : ffs0.eps_count = 0) (hfresh2 : ffs0.interfaces_count = 0)
    (hsec : blobTierHandle flags dt = some (counts, data5)) :
    ∃ l, specTierCounts counts data5 = some l ∧
      ∀ p ∈ l, ∀ q ∈ l, p ≠ (0, 0) → q ≠ (0, 0) → p = q := by
  unfold ffsDataGotDescsBody at hacc
  split at hacc
  · cases hacc
  · rename_i counts1 data51 os1 f1 hh
    split at hacc
    · cases hacc
    · rename_i tc f' hrt
      unfold ffsGotDescsHeader at hh
      split at hh
      · cases hh
      · rename_i fd data1 hfd
        rw [Prod.mk.injEq] at hh
        obtain ⟨hcnt, hff1⟩ := hh
        unfold blobTierHandle at hsec
        simp only [hfd, hcnt] at hsec
        obtain ⟨hc1, hc2⟩ := by simpa using hsec
        subst hc1
        subst hc2
        have hf1e : f1.eps_count = 0 := by
          rw [← hff1]
          cases fd <;> simpa using hfresh1
        have hf1i : f1.interfaces_count = 0 := by
          rw [← hff1]
          cases fd <;> simpa using hfresh2
        obtain ⟨l, hl, hall⟩ := readTiers_fresh _ _ _ hrt hf1e hf1i
        exact ⟨l, hl, fun p hp q hq hpne hqne => (hall p hp hpne).trans (hall q hq hqne).symm⟩

/-- C1 counterexample: the claim says acceptance implies equal per-tier
endpoint/interface counts for all present tiers.  `blobZeroTier` is accepted
(`__ffs_data_got_descs` returns 0) although its full-speed tier computes
(eps, interfaces) = (0, 0) and its high-speed tier (0, 1): a tier that
computes zero endpoints *and* zero interfaces leaves the running session
counts at zero, so the next tier re-enters the "first tier" branch and
installs different counts without any comparison. -/
theorem c1_counterexample :
    (ffsDataGotDescs ffsDataNew blobZeroTier).1 = .ok () ∧
      blobTierSection blobZeroTier = some ([1, 1, 0], blobZeroTier.drop 20) ∧
      specTierCounts [1, 1, 0] (blobZeroTier.drop 20) = some [(0, 0), (0, 1)] ∧
      ((0 : Nat), (0 : Nat)) ≠ ((0 : Nat), (1 : Nat)) :=
  ⟨by rfl, by rfl, by rfl, by decide⟩

/-- C1 amended: for every descriptor blob accepted by the parser from a fresh
session, all present speed tiers whose computed (endpoint count, interface
count) pair is nonzero agree on that pair (each equals the session's final
counts); tiers computing (0, 0) are installed without comparison, so they are
exempt.  Equivalently, two present tiers with nonzero computed counts that
disagree make acceptance fail (the tier-comparison error is `EINVAL`). -/
theorem c1_amended_tier_counts (ffs0 : FfsData) (blob : List Nat) (ffs' : FfsData)
    (counts data : List Nat)
    (hfresh1 : ffs0.eps_count = 0) (hfresh2 : ffs0.interfaces_count = 0)
    (hacc : ffsDataGotDescs ffs0 blob = (.ok (), ffs'))
    (hsec : blobTierSection blob = some (counts, data)) :
    ∃ l, specTierCounts counts data = some l ∧
      ∀ p ∈ l, ∀ q ∈ l, p ≠ (0, 0) → q ≠ (0, 0) → p = q := by
  unfold ffsDataGotDescs at hacc
  unfold blobTierSection at hsec
  split at hacc
  · cases hacc
  · rename_i hlen
    rw [if_neg hlen] at hsec
    split at hacc
    · rename_i hm1
      rw [if_pos hm1] at hsec
      exact gotDescsBody_tiers hacc hfresh1 hfresh2 hsec
    · rename_i hm1
      rw [if_neg hm1] at hsec
      split at hacc
      · rename_i hm3
        rw [if_pos hm3] at hsec
        split at hacc
        · cases hacc
        · rename_i hfl
          rw [if_neg hfl] at hsec
          exact gotDescsBody_tiers hacc hfresh1 hfresh2 hsec
      · cases hacc

/-- Witness for the C1 amended theorem at a concrete accepted blob. -/
theorem c1_amended_tier_counts_witness :
    ∃ l, specTierCounts [1, 1, 0] (blobZeroTier.drop 20) = some l ∧
      ∀ p ∈ l, ∀ q ∈ l, p ≠ (0, 0) → q ≠ (0, 0) → p = q :=
  c1_amended_tier_counts ffsDataNew blobZeroTier
    (ffsDataGotDescs ffsDataNew blobZeroTier).2 [1, 1, 0] (blobZeroTier.drop 20)
    rfl rfl (by rfl) (by rfl)

theorem runEntity_eps_le {t : EntityType} {v : Nat} {d : List Nat} {h : FfsDescHelper}
    {ffs : FfsData} {u : Unit} {hh : FfsDescHelper} {ff : FfsData}
    (heq : runEntity t v d h ffs = (.ok u, hh, ff)) (hb : h.eps_count ≤ 14) :
    hh.eps_count ≤ 14 := by
  unfold runEntity at heq
  split at heq
  · cases heq
  · cases t <;> simp only [ffsDataDoEntity] at heq
    · cases heq
      exact hb
    · cases heq
      split <;> exact hb
    · cases heq
      exact hb
    · split at heq
      · cases heq
      · split at heq
        · cases heq
          rename_i h15 _
          simp at h15 ⊢
          omega
        · split at heq
          · cases heq
          · cases heq
            rename_i h15 _ _
            simp at h15 ⊢
            omega

theorem singleDescInterface_eps_le {d : List Nat} {h : FfsDescHelper} {ffs : FfsData}
    {n : Nat} {hh : FfsDescHelper} {ff : FfsData}
    (heq : singleDescInterface d h ffs = (.ok n, hh, ff)) (hb : h.eps_count ≤ 14) :
    hh.eps_count ≤ 14 := by
  unfold singleDescInterface at heq
  split at heq
  · cases heq
  · rcases hr : runEntity .interface (d.getD 2 0) d h ffs with ⟨re, h1, f1⟩
    rw [hr] at heq
    cases re with
    | error e => simp at heq
    | ok u =>
      simp only at heq
      split at heq
      · rcases hr3 : runEntity .string (d.getD 8 0) d h1 f1 with ⟨re3, h3, f3⟩
        rw [hr3] at heq
        cases re3 with
        | error e => simp at heq
        | ok u3 =>
          simp only at heq
          cases heq
          exact runEntity_eps_le hr3 (runEntity_eps_le hr hb)
      · cases heq
        exact runEntity_eps_le hr hb

theorem singleDescEndpoint_eps_le {d : List Nat} {h : FfsDescHelper} {ffs : FfsData}
    {n : Nat} {hh : FfsDescHelper} {ff : FfsData}
    (heq : singleDescEndpoint d h ffs = (.ok n, hh, ff)) (hb : h.eps_count ≤ 14) :
    hh.eps_count ≤ 14 := by
  unfold singleDescEndpoint at heq
  split at heq
  · cases heq
  · rcases hr : runEntity .endpoint (d.getD 2 0) d h ffs with ⟨re, h1, f1⟩
    rw [hr] at heq
    cases re with
    | error e => simp at heq
    | ok u =>
      simp only at heq
      cases heq
      exact runEntity_eps_le hr hb

theorem singleDescAssoc_eps_le {d : List Nat} {h : FfsDescHelper} {ffs : FfsData}
    {n : Nat} {hh : FfsDescHelper} {ff : FfsData}
    (heq : singleDescAssoc d h ffs = (.ok n, hh, ff)) (hb : h.eps_count ≤ 14) :
    hh.eps_count ≤ 14 := by
  unfold singleDescAssoc at heq
  split at heq
  · cases heq
  · split at heq
    · rcases hr : runEntity .string (d.getD 7 0) d h ffs with ⟨re, h1, f1⟩
      rw [hr] at heq
      cases re with
      | error e => simp at heq
      | ok u =>
        simp only at heq
        cases heq
        exact runEntity_eps_le hr hb
    · cases heq
      exact hb

set_option maxHeartbeats 1600000 in
theorem ffsDoSingleDesc_eps_le {d : List Nat} {h : FfsDescHelper} {ffs : FfsData}
    {n : Nat} {hh : FfsDescHelper} {ff : FfsData}
    (heq : ffsDoSingleDesc d h ffs = (.ok n, hh, ff)) (hb : h.eps_count ≤ 14) :
    hh.eps_count ≤ 14 := by
  unfold ffsDoSingleDesc at heq
  split at heq
  · cases heq
  · split at heq
    · cases heq
    · split at heq
      · cases heq
      · split at heq
        · exact singleDescInterface_eps_le heq hb
        · split at heq
          · exact singleDescEndpoint_eps_le heq hb
          · split at heq
            · split at heq
              · cases heq
              · cases heq
                exact hb
            · split at heq
              · split at heq
                · cases heq
                · cases heq
                  exact hb
              · split at heq
                · exact singleDescAssoc_eps_le heq hb
                · split at heq
                  · split at heq
                    · cases heq
                    · cases heq
                      exact hb
                  · cases heq

theorem ffsDoDescs_eps_le :
    ∀ (k : Nat) (d : List Nat) (h : FfsDescHelper) (ffs : FfsData)
      {n : Nat} {hh : FfsDescHelper} {ff : FfsData},
      ffsDoDescs k d h ffs = (.ok n, hh, ff) → h.eps_count ≤ 14 →
      hh.eps_count ≤ 14 := by
  intro k
  induction k with
  | zero =>
    intro d h ffs n hh ff heq hb
    simp only [ffsDoDescs, ffsDataDoEntity] at heq
    cases heq
    exact hb
  | succ k ih =>
    intro d h ffs n hh ff heq hb
    simp only [ffsDoDescs, ffsDataDoEntity] at heq
    split at heq
    · cases heq
    · rename_i consumed h1 f1 hs
      split at heq
      · cases heq
        rename_i nrec hrec
        exact ih _ _ _ hrec (ffsDoSingleDesc_eps_le hs hb)
      · cases heq

/-- C10: within one speed tier, a configuration declaring more than 14
endpoints is rejected.  First conjunct: with 14 endpoints already counted,
the `FFS_ENDPOINT` entity callback (`__ffs_data_do_entity`) rejects the 15th
endpoint descriptor with `EINVAL` (`helper->eps_count++; if (>= 15) return
-EINVAL`), which aborts the walk and hence acceptance.  Second conjunct: a
tier walk that succeeds never counts more than 14 endpoints. -/
theorem c10_endpoint_limit :
    (∀ (v : Nat) (d : List Nat) (h : FfsDescHelper) (ffs : FfsData),
        14 ≤ h.eps_count →
        (ffsDataDoEntity .endpoint v d h ffs).1 = .error (-EINVAL)) ∧
    (∀ (k : Nat) (d : List Nat) (h : FfsDescHelper) (ffs : FfsData)
        (n : Nat) (hh : FfsDescHelper) (ff : FfsData),
        ffsDoDescs k d h ffs = (.ok n, hh, ff) → h.eps_count ≤ 14 →
        hh.eps_count ≤ 14) := by
  constructor
  · intro v d h ffs hb
    simp only [ffsDataDoEntity]
    rw [if_pos (by omega)]
  · intro k d h ffs n hh ff heq hb
    exact ffsDoDescs_eps_le k d h ffs heq hb

/-- Witness for C10 at concrete inputs: the 15th endpoint of a tier is
rejected with `EINVAL`, and a successfully walked one-endpoint tier reports
an endpoint count within the limit. -/
theorem c10_endpoint_limit_witness :
    (ffsDataDoEntity .endpoint 129 [7, 5, 129, 2, 64, 0, 0] ⟨0, 14⟩ ffsDataNew).1 =
        .error (-EINVAL) ∧
      ((ffsDoDescs 1 [7, 5, 129, 2, 64, 0, 0] ⟨0, 0⟩ ffsDataNew).2.1).eps_count ≤ 14 :=
  ⟨c10_endpoint_limit.1 129 [7, 5, 129, 2, 64, 0, 0] ⟨0, 14⟩ ffsDataNew (by decide),
    c10_endpoint_limit.2 1 [7, 5, 129, 2, 64, 0, 0] ⟨0, 0⟩ ffsDataNew 7
      (ffsDoDescs 1 [7, 5, 129, 2, 64, 0, 0] ⟨0, 0⟩ ffsDataNew).2.1
      (ffsDoDescs 1 [7, 5, 129, 2, 64, 0, 0] ⟨0, 0⟩ ffsDataNew).2.2
      (by rfl) (by decide)⟩

/-! ### Control file (ep0)

Embedding of `ffs_ep0_read`, `ffs_ep0_write`, `__ffs_ep0_stall`,
`__ffs_ep0_queue_wait`, `__ffs_ep0_read_events` and
`ffs_setup_state_clear_cancelled`.  External calls (instance lookup, mutex,
allocation, user copies, UDC queue/completion, epfiles creation, `ffs_ready`)
are resolved by an `Ep0World` record carrying each call's outcome. -/

/-- Outcomes of the external calls made by the ep0 read/write paths. -/
structure Ep0World where
  inst_ret : Int
  mutex_ret : Int
  ev_wait_interrupted : Bool
  wake_ev_types : List Ev
  alloc_ok : Bool
  copy_from_ok : Bool
  queue_ret : Int
  wait_interrupted : Bool
  req_status : Int
  req_actual : Nat
  copy_ok : Bool
  epfiles_ret : Int
  ready_ret : Int
deriving DecidableEq, Repr

/-- All external calls succeed. -/
def benignEp0World : Ep0World where
  inst_ret := 0
  mutex_ret := 0
  ev_wait_interrupted := false
  wake_ev_types := []
  alloc_ok := true
  copy_from_ok := true
  queue_ret := 0
  wait_interrupted := false
  req_status := 0
  req_actual := 0
  copy_ok := true
  epfiles_ret := 0
  ready_ret := 0

/-- Result of an ep0 call: return value, session state afterwards, and
whether the path called `usb_ep_set_halt` on ep0 (a protocol stall). -/
structure Ep0Result where
  ret : Int
  ffs : FfsData
  stalled : Bool
deriving DecidableEq, Repr

/-- `ffs_setup_state_clear_cancelled` (f_fs.c):
`cmpxchg(&ffs->setup_state, FFS_SETUP_CANCELLED, FFS_NO_SETUP)` — returns the
old sub-state and replaces `FFS_SETUP_CANCELLED` by `FFS_NO_SETUP`. -/
def ffsSetupStateClearCancelled (ffs : FfsData) : SetupState × FfsData :=
  if ffs.setup_state = .setupCancelled then
    (.setupCancelled, { ffs with setup_state := .noSetup })
  else (ffs.setup_state, ffs)

/-- `__ffs_ep0_stall` (f_fs.c): when `ffs->ev.can_stall`, halt ep0, reset the
setup sub-state and fail `EL2HLT`; otherwise fail `ESRCH` without stalling. -/
def ffsEp0Stall (ffs : FfsData) : Int × FfsData × Bool :=
  if ffs.can_stall then (-EL2HLT, { ffs with setup_state := .noSetup }, true)
  else (-ESRCH, ffs, false)

/-- `__ffs_ep0_queue_wait` (f_fs.c): queue the request on ep0 (failure returns
the queue error with the sub-state untouched), wait interruptibly (interrupt
dequeues and fails `EINTR`), then reset the sub-state to `FFS_NO_SETUP` and
return `req->status ? req->status : req->actual`. -/
def ffsEp0QueueWait (ffs : FfsData) (w : Ep0World) : Int × FfsData :=
  if w.queue_ret < 0 then (w.queue_ret, ffs)
  else if w.wait_interrupted then (-EINTR, ffs)
  else ((if w.req_status ≠ 0 then w.req_status else (w.req_actual : Int)),
    { ffs with setup_state := .noSetup })

/-- `__ffs_ep0_read_events` (f_fs.c): pop `n` events (callers pass
`min(n, ffs->ev.count)`), set the sub-state to `FFS_SETUP_PENDING` for each
popped setup event, then copy the 12-byte records out (`EFAULT` on copy
failure, the events staying consumed). -/
def ffsEp0ReadEvents (ffs : FfsData) (n : Nat) (w : Ep0World) : Ep0Result :=
  ⟨if w.copy_ok then ((n * 12 : Nat) : Int) else -EFAULT,
    ffsEp0ReadEventsPop ffs n, false⟩

/-- `ffs_ep0_read` (f_fs.c): instance check, fast `EIDRM` exit when the setup
was cancelled, mutex, `EBADFD` outside `FFS_ACTIVE`; with no setup pending the
call reads queued events (记录 size 12, `EINVAL` when the buffer holds none,
`EAGAIN` when non-blocking and empty, interruptible wait otherwise); with a
setup pending a device-to-host (`USB_DIR_IN`) data stage stalls, otherwise a
buffer of `min(len, wLength)` bytes is allocated, the transfer queued and
awaited, and the data copied out. -/
def ffsEp0Read (ffs0 : FfsData) (len : Nat) (nonblock : Bool) (w : Ep0World) :
    Ep0Result :=
  if w.inst_ret < 0 then ⟨w.inst_ret, ffs0, false⟩ else
  match ffsSetupStateClearCancelled ffs0 with
  | (old1, ffs1) =>
  if old1 = .setupCancelled then ⟨-EIDRM, ffs1, false⟩ else
  if w.mutex_ret < 0 then ⟨w.mutex_ret, ffs1, false⟩ else
  if ffs1.state ≠ .active then ⟨-EBADFD, ffs1, false⟩ else
  match ffsSetupStateClearCancelled ffs1 with
  | (old2, ffs2) =>
  match old2 with
  | .setupCancelled => ⟨-EIDRM, ffs2, false⟩
  | .noSetup =>
    if len / 12 = 0 then ⟨-EINVAL, ffs2, false⟩ else
    if nonblock ∧ ffs2.ev_types = [] then ⟨-EAGAIN, ffs2, false⟩ else
    if ffs2.ev_types = [] then
      if w.ev_wait_interrupted then ⟨-EINTR, ffs2, false⟩
      else
        ffsEp0ReadEvents { ffs2 with ev_types := w.wake_ev_types }
          (min (len / 12) w.wake_ev_types.length) w
    else ffsEp0ReadEvents ffs2 (min (len / 12) ffs2.ev_types.length) w
  | .setupPending =>
    if ffs2.ev_setup.bRequestType &&& USB_DIR_IN ≠ 0 then
      match ffsEp0Stall ffs2 with
      | (r, ffs3, st) => ⟨r, ffs3, st⟩
    else
      if min len ffs2.ev_setup.wLength ≠ 0 ∧ ¬ w.alloc_ok then ⟨-ENOMEM, ffs2, false⟩
      else
        match ffsSetupStateClearCancelled ffs2 with
        | (old3, ffs3) =>
        if old3 = .setupCancelled then ⟨-EIDRM, ffs3, false⟩ else
        match ffsEp0QueueWait ffs3 w with
        | (r, ffs4) =>
          if 0 < r ∧ ¬ w.copy_ok then ⟨-EFAULT, ffs4, false⟩ else ⟨r, ffs4, false⟩

/-- `ffs_ep0_write` (f_fs.c): instance check, fast `EIDRM` exit when the setup
was cancelled, mutex, then by lifecycle state: the two collection states check
a 16-byte minimum, copy the blob in and run the descriptor/string parser
(success after strings materialises the endpoint files — failure there or in
`ffs_ready` moves the session to `FFS_CLOSING`); `FFS_ACTIVE` requires a
pending setup with a host-to-device data stage (`USB_DIR_IN` clear stalls),
truncates to `wLength`, re-checks for cancellation and queues the transfer;
other states fail `EBADFD`. -/
def ffsEp0Write (ffs0 : FfsData) (data : List Nat) (nonblock : Bool) (w : Ep0World) :
    Ep0Result :=
  if w.inst_ret < 0 then ⟨w.inst_ret, ffs0, false⟩ else
  match ffsSetupStateClearCancelled ffs0 with
  | (old1, ffs1) =>
  if old1 = .setupCancelled then ⟨-EIDRM, ffs1, false⟩ else
  if w.mutex_ret < 0 then ⟨w.mutex_ret, ffs1, false⟩ else
  match ffs1.state with
  | .readDescriptors =>
    if data.length < 16 then ⟨-EINVAL, ffs1, false⟩ else
    if ¬ w.alloc_ok then ⟨-ENOMEM, ffs1, false⟩ else
    if ¬ w.copy_from_ok then ⟨-EFAULT, ffs1, false⟩ else
    match ffsDataGotDescs ffs1 data with
    | (.error e, f2) => ⟨e, f2, false⟩
    | (.ok _, f2) => ⟨(data.length : Int), { f2 with state := .readStrings }, false⟩
  | .readStrings =>
    if data.length < 16 then ⟨-EINVAL, ffs1, false⟩ else
    if ¬ w.alloc_ok then ⟨-ENOMEM, ffs1, false⟩ else
    if ¬ w.copy_from_ok then ⟨-EFAULT, ffs1, false⟩ else
    match ffsDataGotStrings ffs1 data with
    | (.error e, f2) => ⟨e, f2, false⟩
    | (.ok _, f2) =>
      if w.epfiles_ret ≠ 0 then ⟨w.epfiles_ret, { f2 with state := .closing }, false⟩
      else if w.ready_ret < 0 then ⟨w.ready_ret, { f2 with state := .closing }, false⟩
      else ⟨(data.length : Int), { f2 with state := .active }, false⟩
  | .active =>
    match ffsSetupStateClearCancelled ffs1 with
    | (old2, ffs2) =>
    match old2 with
    | .setupCancelled => ⟨-EIDRM, ffs2, false⟩
    | .noSetup => ⟨-ESRCH, ffs2, false⟩
    | .setupPending =>
      if ffs2.ev_setup.bRequestType &&& USB_DIR_IN = 0 then
        match ffsEp0Stall ffs2 with
        | (r, ffs3, st) => ⟨r, ffs3, st⟩
      else
        if min data.length ffs2.ev_setup.wLength ≠ 0 ∧ ¬ w.alloc_ok then
          ⟨-ENOMEM, ffs2, false⟩
        else if min data.length ffs2.ev_setup.wLength ≠ 0 ∧ ¬ w.copy_from_ok then
          ⟨-EFAULT, ffs2, false⟩
        else
          match ffsSetupStateClearCancelled ffs2 with
          | (old3, ffs3) =>
          if old3 = .setupCancelled then ⟨-EIDRM, ffs3, false⟩ else
          match ffsEp0QueueWait ffs3 w with
          | (r, ffs4) => ⟨r, ffs4, false⟩
  | _ => ⟨-EBADFD, ffs1, false⟩

theorem ffsDataDoOsDesc_state (t : OsDescType) (hIface : Nat) (data : List Nat)
    (ffs : FfsData) : ((ffsDataDoOsDesc t hIface data ffs).2).state = ffs.state := by
  cases t <;> simp only [ffsDataDoOsDesc] <;> repeat' split
  all_goals rfl

theorem ffsDoSingleOsDesc_state :
    ∀ (fc : Nat) (data : List Nat) (t : OsDescType) (hIface : Nat) (ffs : FfsData)
      {r : Except Int Nat} {ff : FfsData},
      ffsDoSingleOsDesc fc data t hIface ffs = (r, ff) → ff.state = ffs.state := by
  intro fc
  induction fc with
  | zero =>
    intro data t hIface ffs r ff heq
    simp only [ffsDoSingleOsDesc] at heq
    cases heq
    rfl
  | succ k ih =>
    intro data t hIface ffs r ff heq
    simp only [ffsDoSingleOsDesc] at heq
    split at heq
    · cases heq
      rename_i e f1 hd
      have hp := ffsDataDoOsDesc_state t hIface data ffs
      rw [hd] at hp
      exact hp
    · rename_i consumed f1 hd
      have hp := ffsDataDoOsDesc_state t hIface data ffs
      rw [hd] at hp
      split at heq
      · cases heq
        rename_i m hrec
        exact (ih _ _ _ _ hrec).trans hp
      · cases heq
        rename_i e hrec
        exact (ih _ _ _ _ hrec).trans hp

theorem ffsDoOsDescs_state :
    ∀ (n : Nat) (data : List Nat) (ffs : FfsData) {r : Except Int Nat} {ff : FfsData},
      ffsDoOsDescs n data ffs = (r, ff) → ff.state = ffs.state := by
  intro n
  induction n with
  | zero =>
    intro data ffs r ff heq
    simp only [ffsDoOsDescs] at heq
    cases heq
    rfl
  | succ k ih =>
    intro data ffs r ff heq
    simp only [ffsDoOsDescs] at heq
    split at heq
    · cases heq
      rfl
    · split at heq
      · cases heq
        rfl
      · split at heq
        · cases heq
          rfl
        · split at heq
          · cases heq
            rfl
          · split at heq
            · cases heq
              rename_i e f1 hs
              exact ffsDoSingleOsDesc_state _ _ _ _ _ hs
            · rename_i consumed f1 hs
              split at heq
              · cases heq
                rename_i m hrec
                exact (ih _ _ hrec).trans (ffsDoSingleOsDesc_state _ _ _ _ _ hs)
              · cases heq
                rename_i e hrec
                exact (ih _ _ hrec).trans (ffsDoSingleOsDesc_state _ _ _ _ _ hs)

theorem ffsGotDescsReadTiers_state :
    ∀ (counts : List Nat) (data : List Nat) (ffs : FfsData)
      {r : Except Int Nat} {ff : FfsData},
      ffsGotDescsReadTiers counts data ffs = (r, ff) → ff.state = ffs.state := by
  intro counts
  induction counts with
  | nil =>
    intro data ffs r ff heq
    simp only [ffsGotDescsReadTiers] at heq
    cases heq
    rfl
  | cons c rest ih =>
    intro data ffs r ff heq
    simp only [ffsGotDescsReadTiers] at heq
    by_cases hc : c = 0
    · rw [if_pos hc] at heq
      exact ih _ _ heq
    · rw [if_neg hc] at heq
      split at heq
      · cases heq
        rename_i e h1 hd
        exact (ffsDoDescs_pres _ _ _ _ hd).2.2
      · rename_i consumed h1 f1 hd
        have hp := (ffsDoDescs_pres _ _ _ _ hd).2.2
        split at heq
        · split at heq
          · cases heq
            rename_i m hrec
            exact (ih _ _ hrec).trans hp
          · cases heq
            rename_i e hrec
            exact (ih _ _ hrec).trans hp
        · split at heq
          · cases heq
            exact hp
          · split at heq
            · cases heq
              exact hp
            · split at heq
              · cases heq
                rename_i m hrec
                exact (ih _ _ hrec).trans hp
              · cases heq
                rename_i e hrec
                exact (ih _ _ hrec).trans hp

theorem ffsGotDescsHeader_state (ffs0 : FfsData) (flags : Nat) (data : List Nat) :
    ((ffsGotDescsHeader ffs0 flags data).2).state = ffs0.state := by
  unfold ffsGotDescsHeader
  repeat' split
  all_goals rfl

theorem ffsDataGotDescsBody_state {ffs0 : FfsData} {blob : List Nat} {flags : Nat}
    {data : List Nat} {r : Except Int Unit} {ff : FfsData}
    (heq : ffsDataGotDescsBody ffs0 blob flags data = (r, ff)) : ff.state = ffs0.state := by
  unfold ffsDataGotDescsBody at heq
  split at heq
  · cases heq
    rename_i e f1 hh
    have hp := ffsGotDescsHeader_state ffs0 flags data
    rw [hh] at hp
    exact hp
  · rename_i counts data5 osCount f1 hh
    have hp1 := ffsGotDescsHeader_state ffs0 flags data
    rw [hh] at hp1
    split at heq
    · cases heq
      rename_i e hrt
      exact (ffsGotDescsReadTiers_state _ _ _ hrt).trans hp1
    · rename_i tc f' hrt
      have hp2 := (ffsGotDescsReadTiers_state _ _ _ hrt).trans hp1
      split at heq
      · cases heq
        rename_i e hos
        by_cases hosc : osCount ≠ 0
        · rw [if_pos hosc] at hos
          exact (ffsDoOsDescs_state _ _ _ hos).trans hp2
        · rw [if_neg hosc] at hos
          cases hos
      · rename_i oc f2 hos
        have hp3 : f2.state = ffs0.state := by
          by_cases hosc : osCount ≠ 0
          · rw [if_pos hosc] at hos
            exact (ffsDoOsDescs_state _ _ _ hos).trans hp2
          · rw [if_neg hosc] at hos
            cases hos
            exact hp2
        split at heq
        · cases heq
          exact hp3
        · cases heq
          exact hp3

theorem ffsDataGotDescs_state {ffs0 : FfsData} {blob : List Nat}
    {r : Except Int Unit} {ff : FfsData}
    (heq : ffsDataGotDescs ffs0 blob = (r, ff)) : ff.state = ffs0.state := by
  unfold ffsDataGotDescs at heq
  split at heq
  · cases heq
    rfl
  · split at heq
    · exact ffsDataGotDescsBody_state heq
    · split at heq
      · split at heq
        · cases heq
          rfl
        · have hp := ffsDataGotDescsBody_state heq
          exact hp
      · cases heq
        rfl

theorem clearCancelled_of_ne {ffs : FfsData} (h : ffs.setup_state ≠ .setupCancelled) :
    ffsSetupStateClearCancelled ffs = (ffs.setup_state, ffs) := by
  unfold ffsSetupStateClearCancelled
  rw [if_neg h]

theorem clearCancelled_of_eq {ffs : FfsData} (h : ffs.setup_state = .setupCancelled) :
    ffsSetupStateClearCancelled ffs =
      (.setupCancelled, { ffs with setup_state := .noSetup }) := by
  unfold ffsSetupStateClearCancelled
  rw [if_pos h]

/-- C2: a pending, unanswered setup packet is invalidated by any newly queued
event: `__ffs_event_add` forces `FFS_SETUP_PENDING -> FFS_SETUP_CANCELLED`,
and the next `ffs_ep0_read`/`ffs_ep0_write` then fails with `EIDRM` (the
cancelled sub-state being swapped back to `FFS_NO_SETUP` by the `cmpxchg`)
instead of serving the stale setup data. -/
theorem c2_pending_setup_cancelled_on_event :
    (∀ (ffs : FfsData) (t : Ev), ffs.setup_state = .setupPending →
        (ffsEventAdd ffs t).setup_state = .setupCancelled) ∧
      (∀ (ffs : FfsData) (len : Nat) (nonblock : Bool) (w : Ep0World),
        ffs.setup_state = .setupCancelled → 0 ≤ w.inst_ret →
        ffsEp0Read ffs len nonblock w =
          ⟨-EIDRM, { ffs with setup_state := .noSetup }, false⟩) ∧
      (∀ (ffs : FfsData) (data : List Nat) (nonblock : Bool) (w : Ep0World),
        ffs.setup_state = .setupCancelled → 0 ≤ w.inst_ret →
        ffsEp0Write ffs data nonblock w =
          ⟨-EIDRM, { ffs with setup_state := .noSetup }, false⟩) := by
  refine ⟨?_, ?_, ?_⟩
  · intro ffs t h
    rw [ffsEventAdd_setup_state, if_pos h]
  · intro ffs len nonblock w h hw
    unfold ffsEp0Read
    rw [if_neg (not_lt.mpr hw), clearCancelled_of_eq h]
    exact rfl
  · intro ffs data nonblock w h hw
    unfold ffsEp0Write
    rw [if_neg (not_lt.mpr hw), clearCancelled_of_eq h]
    exact rfl

/-- Witness for C2 at concrete inputs. -/
theorem c2_pending_setup_cancelled_on_event_witness :
    (ffsEventAdd { ffsDataNew with setup_state := .setupPending } .bind).setup_state =
        .setupCancelled ∧
      ffsEp0Read { ffsDataNew with setup_state := .setupCancelled } 12 false
          benignEp0World =
        ⟨-EIDRM, { ffsDataNew with setup_state := .noSetup }, false⟩ ∧
      ffsEp0Write { ffsDataNew with setup_state := .setupCancelled } [] false
          benignEp0World =
        ⟨-EIDRM, { ffsDataNew with setup_state := .noSetup }, false⟩ :=
  ⟨c2_pending_setup_cancelled_on_event.1 _ .bind rfl,
    c2_pending_setup_cancelled_on_event.2.1 _ 12 false benignEp0World rfl (by decide),
    c2_pending_setup_cancelled_on_event.2.2 _ [] false benignEp0World rfl (by decide)⟩

/-- A session in `FFS_ACTIVE` with a pending device-to-host (`USB_DIR_IN`)
setup packet. -/
def ffsPendingIn : FfsData :=
  { ffsDataNew with
    state := .active
    setup_state := .setupPending
    ev_setup := ⟨128, 6, 0, 0, 64⟩ }

/-- A session in `FFS_ACTIVE` with a pending host-to-device setup packet. -/
def ffsPendingOut : FfsData :=
  { ffsDataNew with
    state := .active
    setup_state := .setupPending
    ev_setup := ⟨0, 1, 0, 0, 64⟩ }

/-- C5 counterexample: the claim says an ep0 read during `FFS_SETUP_PENDING`
requires a *device-to-host* data stage and stalls otherwise.  The code checks
the opposite direction: with `USB_DIR_IN` set (device-to-host) the read
*stalls* (`EL2HLT` here, `can_stall` being set), and with `USB_DIR_IN` clear
(host-to-device) it proceeds to queue the transfer and copies the data out
(returning `req->actual = 5`). -/
theorem c5_counterexample :
    ffsEp0Read ffsPendingIn 64 false { benignEp0World with req_actual := 5 } =
        ⟨-EL2HLT, { ffsPendingIn with setup_state := .noSetup }, true⟩ ∧
      ffsEp0Read ffsPendingOut 64 false { benignEp0World with req_actual := 5 } =
        ⟨5, { ffsPendingOut with setup_state := .noSetup }, false⟩ :=
  ⟨by decide, by decide⟩

/-- C5 amended: an ep0 read while `FFS_ACTIVE` with `FFS_SETUP_PENDING`
requires the cached setup packet to have a *host-to-device* data stage
(`USB_DIR_IN` clear).  A device-to-host packet stalls the control endpoint
(`EL2HLT` when stalling is permitted, resetting the sub-state; `ESRCH`
otherwise); with the direction requirement met, a response buffer is
allocated, the transfer is queued and awaited, the sub-state returns to
`FFS_NO_SETUP` and the received data is copied out. -/
theorem c5_amended_ep0_read_direction (ffs : FfsData) (len : Nat) (nonblock : Bool)
    (w : Ep0World) (hstate : ffs.state = .active)
    (hsetup : ffs.setup_state = .setupPending)
    (hinst : 0 ≤ w.inst_ret) (hmutex : 0 ≤ w.mutex_ret) :
    (ffs.ev_setup.bRequestType &&& USB_DIR_IN ≠ 0 →
        ffsEp0Read ffs len nonblock w =
          if ffs.can_stall then ⟨-EL2HLT, { ffs with setup_state := .noSetup }, true⟩
          else ⟨-ESRCH, ffs, false⟩) ∧
      (ffs.ev_setup.bRequestType &&& USB_DIR_IN = 0 → w.alloc_ok = true →
        w.queue_ret = 0 → w.wait_interrupted = false → w.req_status = 0 →
        w.copy_ok = true →
        ffsEp0Read ffs len nonblock w =
          ⟨(w.req_actual : Int), { ffs with setup_state := .noSetup }, false⟩) := by
  have hne : ffs.setup_state ≠ .setupCancelled := by rw [hsetup]; intro hx; cases hx
  constructor
  · intro hdir
    unfold ffsEp0Read ffsEp0Stall
    by_cases hcs : ffs.can_stall = true <;>
      simp [clearCancelled_of_ne hne, hsetup, hstate, hdir, hcs,
        not_lt.mpr hinst, not_lt.mpr hmutex]
  · intro hdir halloc hq hwi hst hcp
    unfold ffsEp0Read ffsEp0QueueWait
    simp [clearCancelled_of_ne hne, hsetup, hstate, hdir, halloc, hq, hwi, hst, hcp,
      not_lt.mpr hinst, not_lt.mpr hmutex]

/-- Witness for the C5 amended theorem at concrete inputs. -/
theorem c5_amended_ep0_read_direction_witness :
    (ffsEp0Read ffsPendingIn 64 false { benignEp0World with req_actual := 5 } =
        if ffsPendingIn.can_stall then
          ⟨-EL2HLT, { ffsPendingIn with setup_state := .noSetup }, true⟩
        else ⟨-ESRCH, ffsPendingIn, false⟩) ∧
      ffsEp0Read ffsPendingOut 64 false { benignEp0World with req_actual := 5 } =
        ⟨((5 : Nat) : Int), { ffsPendingOut with setup_state := .noSetup }, false⟩ :=
  ⟨(c5_amended_ep0_read_direction ffsPendingIn 64 false
      { benignEp0World with req_actual := 5 } rfl rfl (by decide) (by decide)).1
      (by decide),
    (c5_amended_ep0_read_direction ffsPendingOut 64 false
      { benignEp0World with req_actual := 5 } rfl rfl (by decide) (by decide)).2
      (by decide) rfl rfl rfl rfl rfl⟩

/-- C6 counterexample: the claim says a failed descriptor write is atomic —
no partial parser state retained.  Writing `blobPartialFail` (valid full-speed
tier with one endpoint, truncated high-speed tier) fails with `EINVAL` and the
lifecycle state stays `FFS_READ_DESCRIPTORS`, but the endpoint count recorded
while parsing the first tier (`ffs->eps_count = 1`, along with the address-map
entry) is retained in the session, unlike the fresh session's 0. -/
theorem c6_counterexample :
    (ffsEp0Write ffsDataNew blobPartialFail false benignEp0World).ret = -EINVAL ∧
      (ffsEp0Write ffsDataNew blobPartialFail false benignEp0World).ffs.state =
        .readDescriptors ∧
      (ffsEp0Write ffsDataNew blobPartialFail false benignEp0World).ffs.eps_count = 1 ∧
      ffsDataNew.eps_count = 0 :=
  ⟨by rfl, by rfl, by rfl, by rfl⟩

/-- `__ffs_data_got_strings` mutates no session field on any error path: all
its `goto error` / `goto error_free` exits free local buffers only, and
`ffs->stringtabs` / `ffs->raw_strings` are assigned only on success. -/
theorem ffsDataGotStrings_snd (ffs : FfsData) (blob : List Nat) :
    (ffsDataGotStrings ffs blob).1 = .ok () ∨ (ffsDataGotStrings ffs blob).2 = ffs := by
  unfold ffsDataGotStrings
  by_cases h1 : blob.length < 16 ∨ le32 blob 0 ≠ FUNCTIONFS_STRINGS_MAGIC ∨
      le32 blob 4 ≠ blob.length
  · simp [h1]
  · by_cases h2 : (le32 blob 8 = 0) ≠ (le32 blob 12 = 0)
    · simp [h1, h2]
    · by_cases h3 : le32 blob 8 < ffs.strings_count
      · simp [h1, h2, h3]
      · by_cases h4 : ffs.strings_count = 0
        · simp [h1, h2, h3, h4]
        · cases hw : ffsWalkLangs (le32 blob 12) (le32 blob 8) (blob.drop 16) with
          | error e => simp [h1, h2, h3, h4, hw]
          | ok rest =>
            by_cases h5 : rest.length ≠ 0
            · simp [h1, h2, h3, h4, hw, h5]
            · simp [h1, h2, h3, h4, hw, h5]

theorem ffsDataGotStrings_err {ffs : FfsData} {blob : List Nat} {e : Int}
    {f2 : FfsData} (h : ffsDataGotStrings ffs blob = (.error e, f2)) :
    f2 = ffs := by
  rcases ffsDataGotStrings_snd ffs blob with hok | hsnd
  · rw [h] at hok
    simp at hok
  · rw [h] at hsnd
    exact hsnd

/-- C6 amended: a failed write of either collection-phase blob discards the
input blob and leaves the lifecycle state where it was (the write path
advances it only on success).  A failed *string* write is fully atomic: every
error path of `__ffs_data_got_strings` leaves the session untouched.  A
failed *descriptor* write leaves the state at `FFS_READ_DESCRIPTORS`, and a
descriptor blob with an invalid magic (or mismatched length field) fails
`EINVAL` with the session completely untouched; but the descriptor parser's
partial state (interface/endpoint counts, endpoint address map, string
counts) recorded before the failing point is retained, not rolled back. -/
theorem c6_amended_failed_write_state (ffs : FfsData) (blob : List Nat)
    (nonblock : Bool) (w : Ep0World)
    (hsetup : ffs.setup_state ≠ .setupCancelled)
    (hinst : 0 ≤ w.inst_ret) (hmutex : 0 ≤ w.mutex_ret)
    (halloc : w.alloc_ok = true) (hcopy : w.copy_from_ok = true)
    (hlen : 16 ≤ blob.length) :
    (ffs.state = .readDescriptors →
      (∀ e f2, ffsDataGotDescs ffs blob = (.error e, f2) →
        ffsEp0Write ffs blob nonblock w = ⟨e, f2, false⟩ ∧
          f2.state = .readDescriptors) ∧
      (le32 blob 0 ≠ FUNCTIONFS_DESCRIPTORS_MAGIC →
        le32 blob 0 ≠ FUNCTIONFS_DESCRIPTORS_MAGIC_V2 →
        ffsEp0Write ffs blob nonblock w = ⟨-EINVAL, ffs, false⟩)) ∧
    (ffs.state = .readStrings →
      ∀ e f2, ffsDataGotStrings ffs blob = (.error e, f2) →
        ffsEp0Write ffs blob nonblock w = ⟨e, ffs, false⟩ ∧ f2 = ffs) := by
  constructor
  · intro hstate
    have hbad : ∀ e f2, ffsDataGotDescs ffs blob = (.error e, f2) →
        ffsEp0Write ffs blob nonblock w = ⟨e, f2, false⟩ := by
      intro e f2 hgd
      unfold ffsEp0Write
      simp [clearCancelled_of_ne hsetup, hsetup, hstate, halloc, hcopy, hgd,
        not_lt.mpr hinst, not_lt.mpr hmutex, Nat.not_lt.mpr hlen]
    constructor
    · intro e f2 hgd
      exact ⟨hbad e f2 hgd, (ffsDataGotDescs_state hgd).trans hstate⟩
    · intro hm1 hm3
      have hgd : ffsDataGotDescs ffs blob = (.error (-EINVAL), ffs) := by
        unfold ffsDataGotDescs
        by_cases h4 : le32 blob 4 ≠ blob.length
        · rw [if_pos h4]
        · rw [if_neg h4, if_neg hm1, if_neg hm3]
      exact hbad (-EINVAL) ffs hgd
  · intro hstate e f2 hgs
    have hf2 : f2 = ffs := ffsDataGotStrings_err hgs
    subst hf2
    refine ⟨?_, rfl⟩
    unfold ffsEp0Write
    simp [clearCancelled_of_ne hsetup, hsetup, hstate, halloc, hcopy, hgs,
      not_lt.mpr hinst, not_lt.mpr hmutex, Nat.not_lt.mpr hlen]

/-- An invalid-magic blob: 16 bytes, correct length field, junk magic. -/
def blobBadMagic : List Nat :=
  [9, 9, 9, 9, 16, 0, 0, 0, 0, 0, 0, 0, 0, 0, 0, 0]

/-- A malformed string blob: valid header (magic 2, length 20, one string,
one language) and a language id, but the string runs to the end of the
buffer without a NUL terminator. -/
def blobBadStrings : List Nat :=
  [2, 0, 0, 0, 20, 0, 0, 0, 1, 0, 0, 0, 1, 0, 0, 0, 9, 4, 65, 66]

/-- A session collecting strings with one string required by its
descriptors. -/
def ffsStrSession : FfsData :=
  { ffsDataNew with state := .readStrings, strings_count := 1 }

/-- Witness for the C6 amended theorem at concrete inputs. -/
theorem c6_amended_failed_write_state_witness :
    ((ffsEp0Write ffsDataNew blobPartialFail false benignEp0World =
        ⟨-EINVAL, (ffsDataGotDescs ffsDataNew blobPartialFail).2, false⟩ ∧
      (ffsDataGotDescs ffsDataNew blobPartialFail).2.state = .readDescriptors) ∧
      ffsEp0Write ffsDataNew blobBadMagic false benignEp0World =
        ⟨-EINVAL, ffsDataNew, false⟩) ∧
      ffsEp0Write ffsStrSession blobBadStrings false benignEp0World =
        ⟨-EINVAL, ffsStrSession, false⟩ :=
  ⟨⟨(c6_amended_failed_write_state ffsDataNew blobPartialFail false benignEp0World
      (by decide) (by decide) (by decide) rfl rfl (by decide)).1 rfl |>.1 (-EINVAL)
      (ffsDataGotDescs ffsDataNew blobPartialFail).2 (by rfl),
    (c6_amended_failed_write_state ffsDataNew blobBadMagic false benignEp0World
      (by decide) (by decide) (by decide) rfl rfl (by decide)).1 rfl |>.2
      (by decide) (by decide)⟩,
    ((c6_amended_failed_write_state ffsStrSession blobBadStrings false benignEp0World
      (by decide) (by decide) (by decide) rfl rfl (by decide)).2 rfl (-EINVAL)
      ffsStrSession (by rfl)).1⟩

/-! ### Endpoint I/O engine

Embedding of `ffs_epfile_io` (one pass of its `retry` loop, plus the loop),
`ffs_func_eps_disable`'s per-endpoint-file effect, and the wait condition of
the endpoint-handle wait.  External calls are resolved by an `EpIoWorld`
record; concurrent changes of `epfile->ep` between lock sections are modelled
by the `ep_changed*` outcomes. -/

/-- The per-endpoint fields of `struct ffs_ep` read by the I/O path. -/
structure FfsEp where
  num : Nat
  is_busy : Bool
deriving DecidableEq, Repr

/-- The fields of `struct ffs_epfile` (plus the session state it reads) used
by `ffs_epfile_io`.  `in_dir` models `epfile->in`. -/
structure FfsEpfile where
  error : Bool
  ep : Option FfsEp
  in_dir : Bool
  isoc : Bool
  ffs_state : FfsState
deriving DecidableEq, Repr

/-- The caller-side arguments of one `ffs_epfile_io` call (`struct
ffs_io_data` plus the file's `O_NONBLOCK` flag). -/
structure FfsIoData where
  aio : Bool
  read : Bool
  nonblock : Bool
  len : Nat
deriving DecidableEq, Repr

/-- Outcomes of the external calls of one pass of `ffs_epfile_io`.
`wait_res` resolves `wait_event_interruptible(epfile->wait, (ep = epfile->ep))`:
`.error r` is an interrupting signal (the wait's negative return), `.ok oe`
resumption with `epfile->ep = oe` observed.  `align` is
`usb_ep_align_maybe`. -/
structure EpIoWorld where
  inst_ret : Int
  wait_res : Except Int (Option FfsEp)
  align : Nat → Nat
  alloc_ok : Bool
  copy_from_ok : Bool
  mutex_ret : Int
  ep_changed1 : Bool
  ep_changed2 : Bool
  req_alloc_ok : Bool
  queue_ret : Int
  comp_interrupted : Bool
  ep_changed3 : Bool
  ep_status : Int
  copied : Nat

/-- Result of one pass of the `retry` loop of `ffs_epfile_io`: either a final
return value (with whether `usb_ep_set_halt` was called on the endpoint) or a
jump back to `retry`. -/
inductive EpIterRes
  | done (ret : Int) (stalled : Bool)
  | retry
deriving DecidableEq, Repr

/-- The wait condition of the endpoint-handle wait in `ffs_epfile_io`
(`wait_event_interruptible(epfile->wait, (ep = epfile->ep))`): the wait
resumes only once a handle is assigned — the error flag is not part of the
condition. -/
def epfileWaitCond (epfile : FfsEpfile) : Bool := epfile.ep.isSome

/-- The effect of `ffs_func_eps_disable` on one endpoint file: the error flag
is set and the handle cleared (`epfile->ep = NULL`); no wake-up is issued on
`epfile->wait`. -/
def ffsFuncEpsDisableOne (e : FfsEpfile) : FfsEpfile :=
  { e with error := true, ep := none }

/-- One pass of `ffs_epfile_io` from the `retry` label (f_fs.c): error flag
and `FFS_ACTIVE` checks (`ENODEV`); with no endpoint handle, non-blocking
callers fail `EAGAIN`, writers fail immediately (`EINTR`), readers wait for a
handle; direction mismatch (`halt`, i.e. read of an IN endpoint or write of
an OUT endpoint) on an isochronous endpoint fails `EINVAL` outright, on a
stream endpoint halts the endpoint and fails `EBADMSG`; otherwise the buffer
is allocated (reads align the length via the controller), the request is
queued (`aio` returns `EIOCBQUEUED`; the failed aio request allocation
returns `ret`, still 0, as in the C), the synchronous path waits for
completion, retries transparently when a first-ever read completes with an
error, rejects oversized completions with `EOVERFLOW`, and copies the data
out (`EFAULT` when nothing could be copied). -/
def ffsEpfileIoIter (epfile : FfsEpfile) (frd : Bool) (io : FfsIoData)
    (w : EpIoWorld) : EpIterRes :=
  if epfile.error then .done (-ENODEV) false
  else if epfile.ffs_state ≠ .active then .done (-ENODEV) false
  else
    match (
      match epfile.ep with
      | some ep => .ok ep
      | none =>
        if io.nonblock then .error (-EAGAIN)
        else if ¬ io.read then .error (-EINTR)
        else
          match w.wait_res with
          | .error r => .error r
          | .ok none => .error (-ENODEV)
          | .ok (some ep) => .ok ep : Except Int FfsEp) with
    | .error r => .done r false
    | .ok ep =>
      if (io.read == epfile.in_dir) ∧ epfile.isoc then .done (-EINVAL) false
      else if io.read == epfile.in_dir then
        if w.mutex_ret < 0 then .done w.mutex_ret false
        else if w.ep_changed2 then .done (-ESHUTDOWN) false
        else .done (-EBADMSG) true
      else
        if w.ep_changed1 then .done (-ESHUTDOWN) false
        else
          if ¬ w.alloc_ok then .done (-ENOMEM) false
          else if ¬ io.read ∧ ¬ w.copy_from_ok then .done (-EFAULT) false
          else if w.mutex_ret < 0 then .done w.mutex_ret false
          else if w.ep_changed2 then .done (-ESHUTDOWN) false
          else if io.aio then
            if ¬ w.req_alloc_ok then .done 0 false
            else if w.queue_ret < 0 then .done w.queue_ret false
            else .done (-EIOCBQUEUED) false
          else
            if (if ¬ (io.read ∧ ep.is_busy) then w.queue_ret else 0) < 0 then
              .done (- EIO) false
            else if w.comp_interrupted then .done (-EINTR) false
            else
              if io.read ∧ ¬ frd ∧ (if w.ep_changed3 then -ENODEV else w.ep_status) < 0 then
                .retry
              else if io.read ∧
                  0 < (if w.ep_changed3 then -ENODEV else w.ep_status) then
                if ((if io.read then w.align io.len else io.len : Nat) : Int) <
                    (if w.ep_changed3 then -ENODEV else w.ep_status) then
                  .done (-EOVERFLOW) false
                else if w.copied = 0 then .done (-EFAULT) false
                else .done (w.copied : Int) false
              else .done (if w.ep_changed3 then -ENODEV else w.ep_status) false

/-- The `retry` loop of `ffs_epfile_io`: one `EpIoWorld` per pass
(`first_read_done` stays false across retries; a retry also clears the error
flags of every endpoint file, a no-op for this one, whose flag was observed
clear).  `none` means the modelled passes were exhausted while still
retrying. -/
def ffsEpfileIoLoop : FfsEpfile → Bool → FfsIoData → List EpIoWorld →
    Option (Int × Bool)
  | _, _, _, [] => none
  | epfile, frd, io, w :: ws =>
    match ffsEpfileIoIter epfile frd io w with
    | .done r st => some (r, st)
    | .retry => ffsEpfileIoLoop epfile frd io ws

/-- `ffs_epfile_io` (f_fs.c): the instance-existence check, then the `retry`
loop. -/
def ffsEpfileIo (epfile : FfsEpfile) (frd : Bool) (io : FfsIoData)
    (ws : List EpIoWorld) : Option (Int × Bool) :=
  match ws with
  | [] => none
  | w :: _ =>
    if w.inst_ret < 0 then some (w.inst_ret, false)
    else ffsEpfileIoLoop epfile frd io ws

/-- C7 counterexample: an endpoint file with no handle assigned (a blocking
reader on it is waiting on `epfileWaitCond`).  Permanent teardown
(`ffs_func_eps_disable`) sets the error flag, yet the wait condition — which
tests only the handle — is still false afterwards, so contrary to the claim
the blocked reader is not unblocked by the error flag being set (and the
teardown issues no wake-up on `epfile->wait` either). -/
theorem c7_counterexample :
    (ffsFuncEpsDisableOne
      { error := false, ep := none, in_dir := true, isoc := false,
        ffs_state := .active }).error = true ∧
    epfileWaitCond (ffsFuncEpsDisableOne
      { error := false, ep := none, in_dir := true, isoc := false,
        ffs_state := .active }) = false := by
  decide

/-- C7 (amended): with a null endpoint handle, a non-blocking caller fails
`EAGAIN` and a write caller fails immediately with `EINTR`; a read caller
waits on a condition that tests only handle assignment (the error flag is not
part of it — teardown leaves the condition false), returning the wait's error
on a signal and `ENODEV` if woken without a handle; a caller arriving after
teardown (error flag already set) fails `ENODEV` at entry. -/
theorem c7_amended_null_handle_behaviour (epf : FfsEpfile) (io : FfsIoData)
    (w : EpIoWorld) (frd : Bool) (ws : List EpIoWorld)
    (herr : epf.error = false) (hst : epf.ffs_state = .active)
    (hep : epf.ep = none) (hinst : 0 ≤ w.inst_ret) :
    (io.nonblock = true →
      ffsEpfileIo epf frd io (w :: ws) = some (-EAGAIN, false)) ∧
    (io.nonblock = false → io.read = false →
      ffsEpfileIo epf frd io (w :: ws) = some (-EINTR, false)) ∧
    (io.nonblock = false → io.read = true → ∀ r : Int, w.wait_res = .error r →
      ffsEpfileIo epf frd io (w :: ws) = some (r, false)) ∧
    (io.nonblock = false → io.read = true → w.wait_res = .ok none →
      ffsEpfileIo epf frd io (w :: ws) = some (-ENODEV, false)) ∧
    (∀ e : FfsEpfile, epfileWaitCond e = e.ep.isSome ∧
      epfileWaitCond (ffsFuncEpsDisableOne e) = false) ∧
    (∀ e : FfsEpfile, e.error = true →
      ffsEpfileIoIter e frd io w = .done (-ENODEV) false) := by
  refine ⟨?_, ?_, ?_, ?_, ?_, ?_⟩
  · intro hnb
    simp [ffsEpfileIo, ffsEpfileIoLoop, ffsEpfileIoIter, herr, hst, hep, hnb,
      not_lt.mpr hinst]
  · intro hnb hwr
    simp [ffsEpfileIo, ffsEpfileIoLoop, ffsEpfileIoIter, herr, hst, hep, hnb,
      hwr, not_lt.mpr hinst]
  · intro hnb hrd r hres
    simp [ffsEpfileIo, ffsEpfileIoLoop, ffsEpfileIoIter, herr, hst, hep, hnb,
      hrd, hres, not_lt.mpr hinst]
  · intro hnb hrd hres
    simp [ffsEpfileIo, ffsEpfileIoLoop, ffsEpfileIoIter, herr, hst, hep, hnb,
      hrd, hres, not_lt.mpr hinst]
  · intro e
    exact ⟨rfl, by simp [epfileWaitCond, ffsFuncEpsDisableOne]⟩
  · intro e he
    simp [ffsEpfileIoIter, he]

theorem c7_amended_null_handle_behaviour_witness :
    ffsEpfileIo
      { error := false, ep := none, in_dir := true, isoc := false,
        ffs_state := .active } false
      { aio := false, read := false, nonblock := true, len := 64 }
      [{ inst_ret := 0, wait_res := .ok none, align := id, alloc_ok := true,
         copy_from_ok := true, mutex_ret := 0, ep_changed1 := false,
         ep_changed2 := false, req_alloc_ok := true, queue_ret := 0,
         comp_interrupted := false, ep_changed3 := false, ep_status := 0,
         copied := 0 }] = some (-EAGAIN, false) :=
  (c7_amended_null_handle_behaviour
    { error := false, ep := none, in_dir := true, isoc := false,
      ffs_state := .active }
    { aio := false, read := false, nonblock := true, len := 64 }
    { inst_ret := 0, wait_res := .ok none, align := id, alloc_ok := true,
      copy_from_ok := true, mutex_ret := 0, ep_changed1 := false,
      ep_changed2 := false, req_alloc_ok := true, queue_ret := 0,
      comp_interrupted := false, ep_changed3 := false, ep_status := 0,
      copied := 0 }
    false [] rfl rfl rfl (by decide)).1 rfl

/-- C8: on a synchronous read whose completion reports more bytes than the
(controller-aligned) buffer holds, `ffs_epfile_io` returns `-EOVERFLOW`
instead of copying truncated data out. -/
theorem c8_read_overflow_eoverflow (epf : FfsEpfile) (ep : FfsEp)
    (io : FfsIoData) (w : EpIoWorld) (frd : Bool) (ws : List EpIoWorld)
    (herr : epf.error = false) (hst : epf.ffs_state = .active)
    (hep : epf.ep = some ep) (hrd : io.read = true) (haio : io.aio = false)
    (hdir : epf.in_dir = false) (hc1 : w.ep_changed1 = false)
    (halloc : w.alloc_ok = true) (hinst : 0 ≤ w.inst_ret)
    (hmx : 0 ≤ w.mutex_ret) (hc2 : w.ep_changed2 = false)
    (hq : 0 ≤ w.queue_ret) (hcomp : w.comp_interrupted = false)
    (hc3 : w.ep_changed3 = false)
    (hover : ((w.align io.len : Nat) : Int) < w.ep_status) :
    ffsEpfileIo epf frd io (w :: ws) = some (-EOVERFLOW, false) := by
  have hpos : 0 < w.ep_status :=
    lt_of_le_of_lt (Int.ofNat_nonneg (w.align io.len)) hover
  have hq0 : ¬ ((if ep.is_busy = false then w.queue_ret else 0) < 0) := by
    split
    · exact not_lt.mpr hq
    · decide
  simp [ffsEpfileIo, ffsEpfileIoLoop, ffsEpfileIoIter, herr, hst, hep, hrd,
    haio, hdir, hc1, halloc, hc2, hcomp, hc3, hover, hpos, hq0,
    not_lt.mpr hinst, not_lt.mpr hmx, not_lt.mpr (le_of_lt hpos)]

theorem c8_read_overflow_eoverflow_witness :
    ffsEpfileIo
      { error := false, ep := some { num := 1, is_busy := false },
        in_dir := false, isoc := false, ffs_state := .active } false
      { aio := false, read := true, nonblock := false, len := 64 }
      [{ inst_ret := 0, wait_res := .ok none, align := id, alloc_ok := true,
         copy_from_ok := true, mutex_ret := 0, ep_changed1 := false,
         ep_changed2 := false, req_alloc_ok := true, queue_ret := 0,
         comp_interrupted := false, ep_changed3 := false, ep_status := 100,
         copied := 0 }] = some (-EOVERFLOW, false) :=
  c8_read_overflow_eoverflow
    { error := false, ep := some { num := 1, is_busy := false },
      in_dir := false, isoc := false, ffs_state := .active }
    { num := 1, is_busy := false }
    { aio := false, read := true, nonblock := false, len := 64 }
    { inst_ret := 0, wait_res := .ok none, align := id, alloc_ok := true,
      copy_from_ok := true, mutex_ret := 0, ep_changed1 := false,
      ep_changed2 := false, req_alloc_ok := true, queue_ret := 0,
      comp_interrupted := false, ep_changed3 := false, ep_status := 100,
      copied := 0 }
    false [] rfl rfl rfl rfl rfl rfl rfl rfl (by decide) (by decide) rfl
    (by decide) rfl rfl (by decide)

/-- C9: a direction mismatch (read of an IN endpoint or write of an OUT
endpoint) fails `-EINVAL` with no stall attempted when the endpoint is
isochronous, and halts the endpoint (protocol stall) returning `-EBADMSG`
when it is a stream endpoint. -/
theorem c9_direction_mismatch (epf : FfsEpfile) (ep : FfsEp)
    (io : FfsIoData) (w : EpIoWorld) (frd : Bool) (ws : List EpIoWorld)
    (herr : epf.error = false) (hst : epf.ffs_state = .active)
    (hep : epf.ep = some ep) (hmis : io.read = epf.in_dir)
    (hinst : 0 ≤ w.inst_ret) :
    (epf.isoc = true →
      ffsEpfileIo epf frd io (w :: ws) = some (-EINVAL, false)) ∧
    (epf.isoc = false → 0 ≤ w.mutex_ret → w.ep_changed2 = false →
      ffsEpfileIo epf frd io (w :: ws) = some (-EBADMSG, true)) := by
  constructor
  · intro hiso
    simp [ffsEpfileIo, ffsEpfileIoLoop, ffsEpfileIoIter, herr, hst, hep,
      hmis, hiso, not_lt.mpr hinst]
  · intro hiso hmx hc2
    simp [ffsEpfileIo, ffsEpfileIoLoop, ffsEpfileIoIter, herr, hst, hep,
      hmis, hiso, hc2, not_lt.mpr hinst, not_lt.mpr hmx]

theorem c9_direction_mismatch_witness :
    ffsEpfileIo
      { error := false, ep := some { num := 1, is_busy := false },
        in_dir := true, isoc := true, ffs_state := .active } false
      { aio := false, read := true, nonblock := false, len := 64 }
      [{ inst_ret := 0, wait_res := .ok none, align := id, alloc_ok := true,
         copy_from_ok := true, mutex_ret := 0, ep_changed1 := false,
         ep_changed2 := false, req_alloc_ok := true, queue_ret := 0,
         comp_interrupted := false, ep_changed3 := false, ep_status := 0,
         copied := 0 }] = some (-EINVAL, false) :=
  (c9_direction_mismatch
    { error := false, ep := some { num := 1, is_busy := false },
      in_dir := true, isoc := true, ffs_state := .active }
    { num := 1, is_busy := false }
    { aio := false, read := true, nonblock := false, len := 64 }
    { inst_ret := 0, wait_res := .ok none, align := id, alloc_ok := true,
      copy_from_ok := true, mutex_ret := 0, ep_changed1 := false,
      ep_changed2 := false, req_alloc_ok := true, queue_ret := 0,
      comp_interrupted := false, ep_changed3 := false, ep_status := 0,
      copied := 0 }
    false [] rfl rfl rfl rfl (by decide)).1 rfl

end FFS
